import Mathlib

/-!
# Verification of the laxmi-silver-backend checkout / payment-reconciliation core

A shallow embedding of the order-checkout and payment-reconciliation flow of
the `laxmi-silver-backend` Express/Mongoose application, together with proofs
and refutations of the specification's claims about it.

Conventions of the embedding:

* MongoDB documents become Lean structures; a collection is a `List` of
  documents; `findById` / `findOne` become `List.find?`; a single-document
  update (`save`, `findByIdAndUpdate`, `findOneAndUpdate`) becomes
  `updateFirst`, which rewrites the first matching element of the list.
* Mongoose pre-`save` hooks are applied explicitly at every `save()` site,
  and deliberately *not* applied at `findByIdAndUpdate` / `findOneAndUpdate`
  sites, matching Mongoose's semantics (update queries bypass document
  middleware).
* JS `number` money/weight values become `ℚ`; `Math.round(x*100)/100` becomes
  `round2` (`round` on `ℚ` is `⌊x + 1/2⌋`, the same half-up rule as JS
  `Math.round` on these magnitudes).
* `Date.now()` and `new Date()` become explicit `now : Nat` parameters
  (milliseconds); `req.user._id` becomes an explicit `reqUserId` parameter.
* Thrown `ApiError`s become an `Except ApiErr` component of the result; every
  operation also returns the database it leaves behind, because several
  handlers mutate state before throwing.
* `crypto.createHmac('sha256', …)` is embedded as a full executable
  HMAC-SHA-256 over byte lists (`Nat`s below 256), so signature checks
  evaluate to concrete booleans.
-/

set_option maxRecDepth 10000

namespace LaxmiSilver

/-! ## Bytes, decimal rendering, and hex

All strings that reach the crypto layer in the source are ASCII, so a byte is
modelled as a `Nat` (below 256) and `String.data.map Char.toNat` is the UTF-8
byte sequence of the strings we care about. -/

/-- The bytes of an ASCII string (`Buffer.from(s)` for the ASCII strings the
app hashes). -/
def strBytes (s : String) : List Nat :=
  s.data.map Char.toNat

/-- Little-endian base-10 digit list of `n`, with explicit fuel so the
definition is structurally recursive (and hence kernel-reducible). -/
def natDigitsAux : Nat → Nat → List Nat
  | 0, _ => []
  | fuel + 1, n => if n = 0 then [] else n % 10 :: natDigitsAux fuel (n / 10)

/-- The decimal digit characters. -/
def digitChar (d : Nat) : Char :=
  match d with
  | 0 => '0' | 1 => '1' | 2 => '2' | 3 => '3' | 4 => '4'
  | 5 => '5' | 6 => '6' | 7 => '7' | 8 => '8' | _ => '9'

/-- The characters of the decimal rendering of `n` (most significant digit
first) — JS `${n}` / `n.toString()` for a nonnegative integer. -/
def natChars (n : Nat) : List Char :=
  if n = 0 then ['0'] else ((natDigitsAux n n).map digitChar).reverse

/-- JS `n.toString()` for a nonnegative integer. -/
def natStr (n : Nat) : String :=
  String.mk (natChars n)

/-- One hex digit (lowercase), as `Buffer.digest('hex')` emits. -/
def hexDigit (d : Nat) : Char :=
  match d with
  | 0 => '0' | 1 => '1' | 2 => '2' | 3 => '3' | 4 => '4'
  | 5 => '5' | 6 => '6' | 7 => '7' | 8 => '8' | 9 => '9'
  | 10 => 'a' | 11 => 'b' | 12 => 'c' | 13 => 'd' | 14 => 'e' | _ => 'f'

/-- Lowercase hex rendering of a byte list — `digest('hex')`. -/
def bytesHex (bs : List Nat) : String :=
  String.mk (bs.foldr (fun b acc => hexDigit (b / 16 % 16) :: hexDigit (b % 16) :: acc) [])

/-! ## SHA-256

A direct executable transcription of FIPS 180-4, on `Nat`s reduced mod 2³²
(`w32`). All recursion is structural so that concrete digests reduce in the
kernel. -/

/-- Truncation to a 32-bit word. -/
def w32 (n : Nat) : Nat := n % 4294967296

/-- Rotate a 32-bit word right by `n` places. -/
def rotr (x n : Nat) : Nat := w32 ((x >>> n) ||| (x <<< (32 - n)))

/-- Bitwise complement of a 32-bit word. -/
def wnot (x : Nat) : Nat := 4294967295 - x

/-- The SHA-256 round constants (FIPS 180-4 §4.2.2, written in decimal). -/
def shaK : List Nat :=
  [1116352408, 1899447441, 3049323471, 3921009573, 961987163, 1508970993,
   2453635748, 2870763221, 3624381080, 310598401, 607225278, 1426881987,
   1925078388, 2162078206, 2614888103, 3248222580, 3835390401, 4022224774,
   264347078, 604807628, 770255983, 1249150122, 1555081692, 1996064986,
   2554220882, 2821834349, 2952996808, 3210313671, 3336571891, 3584528711,
   113926993, 338241895, 666307205, 773529912, 1294757372, 1396182291,
   1695183700, 1986661051, 2177026350, 2456956037, 2730485921, 2820302411,
   3259730800, 3345764771, 3516065817, 3600352804, 4094571909, 275423344,
   430227734, 506948616, 659060556, 883997877, 958139571, 1322822218,
   1537002063, 1747873779, 1955562222, 2024104815, 2227730452, 2361852424,
   2428436474, 2756734187, 3204031479, 3329325298]

/-- The SHA-256 initial hash value (FIPS 180-4 §5.3.3, written in decimal). -/
def shaH0 : List Nat :=
  [1779033703, 3144134277, 1013904242, 2773480762,
   1359893119, 2600822924, 528734635, 1541459225]

/-- Extend a 16-word message block to the 64-word schedule; `k` is the number
of words still to append. -/
def shaExtend (ws : List Nat) : Nat → List Nat
  | 0 => ws
  | k + 1 =>
    let n := ws.length
    let w2 := ws.getD (n - 2) 0
    let w7 := ws.getD (n - 7) 0
    let w15 := ws.getD (n - 15) 0
    let w16 := ws.getD (n - 16) 0
    let s0 := rotr w15 7 ^^^ rotr w15 18 ^^^ (w15 >>> 3)
    let s1 := rotr w2 17 ^^^ rotr w2 19 ^^^ (w2 >>> 10)
    shaExtend (ws ++ [w32 (w16 + s0 + w7 + s1)]) k

/-- One SHA-256 round, acting on the eight working variables. -/
def shaRound (st : List Nat) (kw : Nat × Nat) : List Nat :=
  match st with
  | [a, b, c, d, e, f, g, h] =>
    let s1 := rotr e 6 ^^^ rotr e 11 ^^^ rotr e 25
    let ch := (e &&& f) ^^^ (wnot e &&& g)
    let t1 := w32 (h + s1 + ch + kw.1 + kw.2)
    let s0 := rotr a 2 ^^^ rotr a 13 ^^^ rotr a 22
    let mj := (a &&& b) ^^^ (a &&& c) ^^^ (b &&& c)
    let t2 := w32 (s0 + mj)
    [w32 (t1 + t2), a, b, c, w32 (d + t1), e, f, g]
  | st => st

/-- Compress one 16-word block into the running hash. -/
def shaCompress (h : List Nat) (block : List Nat) : List Nat :=
  let ws := shaExtend block 48
  let st := (shaK.zip ws).foldl shaRound h
  (h.zip st).map (fun p => w32 (p.1 + p.2))

/-- Group bytes into big-endian 32-bit words (the input length is a multiple
of 4 after padding). -/
def bytesToWords (bs : List Nat) : List Nat :=
  let fin := bs.foldl
    (fun (acc : List Nat × Nat × Nat) b =>
      let cur := acc.2.1 * 256 + b
      if acc.2.2 = 3 then (acc.1 ++ [cur], 0, 0) else (acc.1, cur, acc.2.2 + 1))
    ([], 0, 0)
  fin.1

/-- Group a word list into 16-word blocks (the input length is a multiple of
16 after padding). -/
def wordsToBlocks (ws : List Nat) : List (List Nat) :=
  let fin := ws.foldl
    (fun (acc : List (List Nat) × List Nat) w =>
      let cur := acc.2 ++ [w]
      if cur.length = 16 then (acc.1 ++ [cur], []) else (acc.1, cur))
    ([], [])
  fin.1

/-- SHA-256 padding: `0x80`, zeros to 56 mod 64, then the bit length as a
big-endian 64-bit integer. -/
def shaPad (msg : List Nat) : List Nat :=
  let len := msg.length
  let zeros := (64 + 55 - len % 64) % 64
  let lenBits := len * 8
  msg ++ [0x80] ++ List.replicate zeros 0 ++
    ((List.range 8).map (fun i => lenBits >>> ((7 - i) * 8) % 256))

/-- Serialize eight hash words back to 32 digest bytes (big-endian). -/
def wordsToBytes (ws : List Nat) : List Nat :=
  ws.foldr (fun w acc => (w >>> 24) % 256 :: (w >>> 16) % 256 :: (w >>> 8) % 256 :: w % 256 :: acc) []

/-- SHA-256 of a byte list, as 32 digest bytes. -/
def sha256 (msg : List Nat) : List Nat :=
  wordsToBytes ((wordsToBlocks (bytesToWords (shaPad msg))).foldl shaCompress shaH0)

/-- HMAC-SHA-256 (RFC 2104) of `msg` under `key`, as 32 digest bytes. -/
def hmacSha256 (key msg : List Nat) : List Nat :=
  let k0 := if key.length > 64 then sha256 key else key
  let kp := k0 ++ List.replicate (64 - k0.length) 0
  let ipad := kp.map (· ^^^ 0x36)
  let opad := kp.map (· ^^^ 0x5c)
  sha256 (opad ++ sha256 (ipad ++ msg))

/-- `crypto.createHmac('sha256', key).update(msg).digest('hex')`. -/
def hmacSha256Hex (key msg : List Nat) : String :=
  bytesHex (hmacSha256 key msg)

/-! ## Data model

Structures for the Mongoose documents involved in the checkout/payment flow
(`Product`, `Cart`, `Coupon`, `Order`), with only the fields the modelled
operations read or write. Monetary amounts and weights are `ℚ`; Mongo
`ObjectId`s are `Nat`s. -/

/-- `payment.status` (`src/constants`: pending | completed | failed | refunded). -/
inductive PaymentStatus
  | pending | completed | failed | refunded
deriving DecidableEq, Repr

/-- Order `status` (`src/constants`). -/
inductive OrderStatus
  | pending | confirmed | processing | shipped | delivered | cancelled | returned
deriving DecidableEq, Repr

/-- `Product.stock` block. `isInStock` is stored, not computed: only the
pre-`save` hook refreshes it. -/
structure Stock where
  quantity : Int
  isInStock : Bool
deriving DecidableEq, Repr

/-- A `Product` document (fields used by cart/order/payment controllers). -/
structure Product where
  pid : Nat
  name : String
  isActive : Bool
  sellingPrice : ℚ
  makingCharges : ℚ
  weight : ℚ
  stock : Stock
deriving DecidableEq, Repr

/-- A cart line item: `{productId, quantity, price}` (price is the snapshot
taken when the item was added). -/
structure CartItem where
  productId : Nat
  quantity : Nat
  price : ℚ
deriving DecidableEq, Repr

/-- A `Cart` document. `totalAmount` is refreshed by the cart pre-`save` hook,
which `findOneAndUpdate` bypasses. -/
structure Cart where
  userId : Nat
  items : List CartItem
  totalAmount : ℚ
deriving DecidableEq, Repr

/-- A `Coupon` document. Following the JS code's truthiness checks,
`usageLimit = 0` and `maxDiscountAmount = 0` mean "no limit" / "no cap"
(both are falsy in `if (coupon.usageLimit)` / `if (coupon.maxDiscountAmount)`). -/
structure Coupon where
  code : String
  isActive : Bool
  validFrom : Nat
  validUntil : Nat
  discountType : String
  discountValue : ℚ
  minOrderAmount : ℚ
  maxDiscountAmount : ℚ
  usageLimit : Nat
  usedCount : Nat
deriving DecidableEq, Repr

/-- An order line item (denormalized snapshot copied at order creation). -/
structure OrderItem where
  productId : Nat
  name : String
  quantity : Nat
  price : ℚ
  weight : ℚ
deriving DecidableEq, Repr

/-- The computed `pricing` block of an order. -/
structure Pricing where
  subtotal : ℚ
  makingCharges : ℚ
  gst : ℚ
  shippingCharges : ℚ
  discount : ℚ
  total : ℚ
deriving DecidableEq, Repr

/-- The `payment` sub-record of an order. -/
structure PaymentInfo where
  method : String
  status : PaymentStatus
  razorpayOrderId : Option String
  razorpayPaymentId : Option String
  razorpaySignature : Option String
  paidAt : Option Nat
deriving DecidableEq, Repr

/-- One `statusHistory` entry. -/
structure HistoryEntry where
  status : OrderStatus
  note : Option String
  updatedBy : Option Nat
  timestamp : Nat
deriving DecidableEq, Repr

/-- An `Order` document. -/
structure Order where
  oid : Nat
  orderNumber : String
  userId : Nat
  items : List OrderItem
  pricing : Pricing
  payment : PaymentInfo
  status : OrderStatus
  statusHistory : List HistoryEntry
  cancellationReason : Option String
deriving DecidableEq, Repr

/-- The database: one list per collection. -/
structure DB where
  orders : List Order
  products : List Product
  carts : List Cart
  coupons : List Coupon
deriving DecidableEq, Repr

/-- A thrown `ApiError(statusCode, message)`. -/
structure ApiErr where
  statusCode : Nat
  message : String
deriving DecidableEq, Repr

/-! ## Generic single-document update

`save()` / `findByIdAndUpdate` / `findOneAndUpdate` write exactly one
document; `updateFirst p f l` rewrites the first element of `l` satisfying
`p`. -/

/-- Rewrite the first element satisfying `p` with `f`. -/
def updateFirst (p : α → Bool) (f : α → α) : List α → List α
  | [] => []
  | x :: xs => if p x then f x :: xs else x :: updateFirst p f xs

/-! ## Mongoose pre-`save` hooks -/

/-- Product pre-`save` hook (`User.model.js`, product schema):
`this.stock.isInStock = this.stock.quantity > 0`. -/
def productSaveHook (p : Product) : Product :=
  { p with stock := { p.stock with isInStock := decide (p.stock.quantity > 0) } }

/-- Display name of an order status (used in the admin controller's default
history note). -/
def statusName : OrderStatus → String
  | .pending => "pending" | .confirmed => "confirmed" | .processing => "processing"
  | .shipped => "shipped" | .delivered => "delivered" | .cancelled => "cancelled"
  | .returned => "returned"

/-- Order pre-`save` status-history hook (`Order.model.js`): on a non-new
document whose `status` path is modified (its value differs from the persisted
`persistedStatus`), push `{status, timestamp}` onto `statusHistory`. -/
def orderStatusHook (persistedStatus : OrderStatus) (now : Nat) (o : Order) : Order :=
  if o.status ≠ persistedStatus then
    { o with statusHistory := o.statusHistory ++ [⟨o.status, none, none, now⟩] }
  else o

/-- Order-number generation hook (`Order.model.js`): on a document without an
`orderNumber`, set it from `Date.now()` and `countDocuments()`:
``LS${Date.now()}${(count + 1).toString().padStart(4, '0')}``. -/
def genOrderNumber (nowMs count : Nat) : String :=
  String.mk ("LS".data ++ natChars nowMs ++
    (List.replicate (4 - (natChars (count + 1)).length) '0' ++ natChars (count + 1)))

/-! ## Payment service (`services/payment.service.js`) -/

/-- `verifyPaymentSignature`: hex HMAC-SHA-256 of
`` `${razorpayOrderId}|${razorpayPaymentId}` `` under `RAZORPAY_KEY_SECRET`,
compared with the supplied signature. -/
def verifyPaymentSignature (keySecret : List Nat) (razorpayOrderId razorpayPaymentId sig : String) : Bool :=
  hmacSha256Hex keySecret (strBytes (razorpayOrderId ++ "|" ++ razorpayPaymentId)) == sig

/-- `JSON.stringify` of a Node `Buffer` holding `bs`:
`` {"type":"Buffer","data":[b0,b1,…]} `` (braces written as escapes). -/
def bufferJson (bs : List Nat) : String :=
  "\x7b\"type\":\"Buffer\",\"data\":[" ++
    String.intercalate "," (bs.map natStr) ++ "]\x7d"

/-- `verifyWebhookSignature(webhookBody, webhookSignature)`: hex HMAC-SHA-256
of `JSON.stringify(webhookBody)` under `RAZORPAY_WEBHOOK_SECRET`, compared
with the signature header. The webhook route is mounted behind
`express.raw({type: 'application/json'})`, so at the handler `webhookBody`
(`req.body`) is the raw `Buffer` of the request body, here `rawBody`. -/
def verifyWebhookSignature (webhookSecret : List Nat) (rawBody : List Nat) (sigHeader : String) : Bool :=
  hmacSha256Hex webhookSecret (strBytes (bufferJson rawBody)) == sigHeader

/-- What the spec demands of webhook authenticity: the HMAC of the exact raw
body bytes the route receives (modelled from the spec for comparison with
`verifyWebhookSignature`). -/
def specWebhookMac (webhookSecret : List Nat) (rawBody : List Nat) : String :=
  hmacSha256Hex webhookSecret rawBody

/-- The Razorpay payment details handed to `processSuccessfulPayment`. -/
structure PayDetails where
  razorpayOrderId : String
  razorpayPaymentId : String
  razorpaySignature : String
deriving DecidableEq, Repr

/-- The stock-decrement loop of `processSuccessfulPayment` and of the admin
confirm path: for each order item, `findById` the product and, when found,
`product.stock.quantity -= item.quantity; product.save()` — a `save()`, so
the stock-status hook runs. -/
def decrementStockForItems (items : List OrderItem) (products : List Product) : List Product :=
  items.foldl
    (fun ps item =>
      updateFirst (fun p => p.pid == item.productId)
        (fun p => productSaveHook
          { p with stock := { p.stock with quantity := p.stock.quantity - item.quantity } })
        ps)
    products

/-- `Cart.findOneAndUpdate({userId}, {items: []})` — a query update, so the
cart pre-`save` hook does not run and `totalAmount` is left as it was. -/
def clearCartOfUser (userId : Nat) (carts : List Cart) : List Cart :=
  updateFirst (fun c => c.userId == userId) (fun c => { c with items := [] }) carts

/-- `PaymentService.processSuccessfulPayment(order, paymentDetails)`: set the
payment fields and `status = 'confirmed'`, `save()` the order (running the
status-history hook against the persisted status `order.status`), decrement
stock for every item, and clear the user's cart. Returns the updated database
and the updated order. -/
def processSuccessfulPayment (db : DB) (order : Order) (d : PayDetails) (now : Nat) : DB × Order :=
  let o1 := { order with
    payment := { order.payment with
      status := .completed
      razorpayOrderId := some d.razorpayOrderId
      razorpayPaymentId := some d.razorpayPaymentId
      razorpaySignature := some d.razorpaySignature
      paidAt := some now }
    status := .confirmed }
  let o2 := orderStatusHook order.status now o1
  let db1 := { db with orders := updateFirst (fun x => x.oid == order.oid) (fun _ => o2) db.orders }
  let db2 := { db1 with products := decrementStockForItems order.items db1.products }
  let db3 := { db2 with carts := clearCartOfUser order.userId db2.carts }
  (db3, o2)

/-- The `payment.captured` / `payment.failed` webhook payload fields the
handlers read: `notes.orderId`, `order_id`, `id`. -/
structure CapturedPayload where
  orderId : Nat
  order_id : String
  id : String
deriving DecidableEq, Repr

/-- `handlePaymentCaptured(payload)`: look the order up by `notes.orderId`;
missing order or `payment.status === 'completed'` is a no-op (the idempotency
guard); otherwise process the successful payment. -/
def handlePaymentCaptured (db : DB) (payload : CapturedPayload) (now : Nat) : DB :=
  match db.orders.find? (fun o => o.oid == payload.orderId) with
  | none => db
  | some order =>
    if order.payment.status = .completed then db
    else (processSuccessfulPayment db order ⟨payload.order_id, payload.id, ""⟩ now).1

/-- `handlePaymentFailed(payload)`: if the order exists, mark its payment
failed and `save()` (status unchanged, so the history hook pushes nothing). -/
def handlePaymentFailed (db : DB) (payload : CapturedPayload) (now : Nat) : DB :=
  match db.orders.find? (fun o => o.oid == payload.orderId) with
  | none => db
  | some order =>
    let o1 := orderStatusHook order.status now
      { order with payment := { order.payment with status := .failed } }
    { db with orders := updateFirst (fun x => x.oid == order.oid) (fun _ => o1) db.orders }

/-- `handleRefundProcessed(payload)`: find the order by
`payment.razorpayPaymentId`; if found, set `payment.status = 'refunded'` and
`save()` it (status unchanged, so the history hook pushes nothing). -/
def handleRefundProcessed (db : DB) (paymentId : String) (now : Nat) : DB :=
  match db.orders.find? (fun o => o.payment.razorpayPaymentId == some paymentId) with
  | none => db
  | some order =>
    let o1 := orderStatusHook order.status now
      { order with payment := { order.payment with status := .refunded } }
    { db with orders := updateFirst (fun x => x.oid == order.oid) (fun _ => o1) db.orders }

/-- The structured reading of a webhook body that `handleWebhook` dispatches
on: the `event` string and the payload entities it extracts. -/
structure WebhookBody where
  event : String
  captured : CapturedPayload
  refundPaymentId : String
deriving DecidableEq, Repr

/-- `handleWebhook`: verify the webhook signature over the raw request body;
an invalid signature throws 400 before anything is read or written; otherwise
dispatch on the event type (unknown events fall through to a log). `rawBody`
is the `Buffer` the raw-mounted route delivers as `req.body`; `body` is the
structured reading of that same value which the dispatch code performs. -/
def handleWebhook (db : DB) (webhookSecret : List Nat) (rawBody : List Nat)
    (body : WebhookBody) (sigHeader : String) (now : Nat) : DB × Except ApiErr Unit :=
  if ¬ verifyWebhookSignature webhookSecret rawBody sigHeader then
    (db, .error ⟨400, "Invalid webhook signature"⟩)
  else if body.event == "payment.captured" then
    (handlePaymentCaptured db body.captured now, .ok ())
  else if body.event == "payment.failed" then
    (handlePaymentFailed db body.captured now, .ok ())
  else if body.event == "refund.processed" then
    (handleRefundProcessed db body.refundPaymentId now, .ok ())
  else (db, .ok ())

/-- `verifyPayment` (POST `/payments/verify`): find the order, check
ownership, verify the Razorpay signature. An invalid signature *first* saves
`payment.status = 'failed'` and then throws 400; a valid one runs
`processSuccessfulPayment` — with no check that the order is not already
completed. -/
def verifyPayment (db : DB) (keySecret : List Nat) (reqUserId orderId : Nat)
    (razorpayOrderId razorpayPaymentId sig : String) (now : Nat) : DB × Except ApiErr Order :=
  match db.orders.find? (fun o => o.oid == orderId) with
  | none => (db, .error ⟨404, "Order not found"⟩)
  | some order =>
    if order.userId ≠ reqUserId then
      (db, .error ⟨403, "Not authorized to access this order"⟩)
    else if ¬ verifyPaymentSignature keySecret razorpayOrderId razorpayPaymentId sig then
      let o1 := orderStatusHook order.status now
        { order with payment := { order.payment with status := .failed } }
      ({ db with orders := updateFirst (fun x => x.oid == order.oid) (fun _ => o1) db.orders },
       .error ⟨400, "Payment verification failed. Invalid signature."⟩)
    else
      let r := processSuccessfulPayment db order ⟨razorpayOrderId, razorpayPaymentId, sig⟩ now
      (r.1, .ok r.2)

/-- The stock-restore loop of `initiateRefund` and `cancelOrder`:
`Product.findByIdAndUpdate(item.productId, {$inc: {'stock.quantity': item.quantity}})`
for each item — a query update, so the stock-status hook does *not* run and
`isInStock` keeps its old value. -/
def restoreStockForItems (items : List OrderItem) (products : List Product) : List Product :=
  items.foldl
    (fun ps item =>
      updateFirst (fun p => p.pid == item.productId)
        (fun p => { p with stock := { p.stock with quantity := p.stock.quantity + item.quantity } })
        ps)
    products

/-- `initiateRefund` (POST `/payments/refund`, admin): requires
`payment.status === 'completed'` and a stored `razorpayPaymentId` (the
gateway refund call is modelled as succeeding); then sets
`payment.status = 'refunded'`, `status = 'cancelled'`, a cancellation reason,
`save()`s the order, and restores stock for every item via `$inc`. -/
def initiateRefund (db : DB) (orderId : Nat) (reason : Option String) (now : Nat) :
    DB × Except ApiErr Unit :=
  match db.orders.find? (fun o => o.oid == orderId) with
  | none => (db, .error ⟨404, "Order not found"⟩)
  | some order =>
    if order.payment.status ≠ .completed then
      (db, .error ⟨400, "Cannot refund order that is not paid"⟩)
    else if order.payment.razorpayPaymentId = none then
      (db, .error ⟨400, "No payment ID found for this order"⟩)
    else
      let o1 := orderStatusHook order.status now
        { order with
          payment := { order.payment with status := .refunded }
          status := .cancelled
          cancellationReason := some (reason.getD "Refund initiated by admin") }
      let db1 := { db with orders := updateFirst (fun x => x.oid == order.oid) (fun _ => o1) db.orders }
      ({ db1 with products := restoreStockForItems order.items db1.products }, .ok ())

/-- `cancelOrder` (PUT `/orders/:id/cancel`): owner only; forbidden for
shipped/delivered/cancelled orders; sets `status = 'cancelled'` with a
reason and `save()`s (history hook pushes once); if the payment was
completed, restores stock via `$inc`. -/
def cancelOrder (db : DB) (reqUserId orderId : Nat) (reason : Option String) (now : Nat) :
    DB × Except ApiErr Unit :=
  match db.orders.find? (fun o => o.oid == orderId) with
  | none => (db, .error ⟨404, "Order not found"⟩)
  | some order =>
    if order.userId ≠ reqUserId then
      (db, .error ⟨403, "Not authorized to cancel this order"⟩)
    else if order.status = .shipped ∨ order.status = .delivered ∨ order.status = .cancelled then
      (db, .error ⟨400, "Cannot cancel order with status"⟩)
    else
      let o1 := orderStatusHook order.status now
        { order with
          status := .cancelled
          cancellationReason := some (reason.getD "Cancelled by customer") }
      let db1 := { db with orders := updateFirst (fun x => x.oid == order.oid) (fun _ => o1) db.orders }
      if order.payment.status = .completed then
        ({ db1 with products := restoreStockForItems order.items db1.products }, .ok ())
      else (db1, .ok ())

/-- `updateOrderStatus` (PUT `/orders/:id/status`, admin): set the new
status, push a history entry explicitly, then — when confirming a pending
order — decrement stock (via `save()`, hook running) and clear the cart,
and finally `save()` the order, whose own pre-`save` hook pushes a *second*
history entry whenever the status value changed. -/
def updateOrderStatus (db : DB) (orderId : Nat) (newStatus : OrderStatus)
    (note : Option String) (adminId : Nat) (now : Nat) : DB × Except ApiErr Unit :=
  match db.orders.find? (fun o => o.oid == orderId) with
  | none => (db, .error ⟨404, "Order not found"⟩)
  | some order =>
    let oldStatus := order.status
    let o1 := { order with
      status := newStatus
      statusHistory := order.statusHistory ++
        [⟨newStatus,
          some (note.getD ("Status changed from " ++ statusName oldStatus ++ " to " ++ statusName newStatus)),
          some adminId, now⟩] }
    let db1 :=
      if newStatus = .confirmed ∧ oldStatus = .pending then
        { db with
          products := decrementStockForItems order.items db.products
          carts := clearCartOfUser order.userId db.carts }
      else db
    let o2 := orderStatusHook oldStatus now o1
    ({ db1 with orders := updateFirst (fun x => x.oid == order.oid) (fun _ => o2) db1.orders },
     .ok ())

/-! ## Checkout (`createOrder`, `cart.controller.js` order section) -/

/-- `Math.round(x * 100) / 100` — JS `Math.round` is `⌊x + 1/2⌋`, which is
Mathlib's `round` on `ℚ`. -/
def round2 (q : ℚ) : ℚ := (round (q * 100) : ℚ) / 100

/-- The stock re-validation loop of `createOrder`: the first line item whose
populated product is missing, inactive, or short on stock produces the
corresponding `ApiError`; `none` means every item passed. -/
def validateCartItems (products : List Product) : List CartItem → Option ApiErr
  | [] => none
  | item :: rest =>
    match products.find? (fun p => p.pid == item.productId) with
    | none => some ⟨400, "One or more products no longer exist"⟩
    | some p =>
      if ¬ p.isActive then
        some ⟨400, "Product \"" ++ p.name ++ "\" is no longer available"⟩
      else if p.stock.quantity < item.quantity then
        some ⟨400, "Insufficient stock for \"" ++ p.name ++ "\""⟩
      else validateCartItems products rest

/-- One `+=` step of the accumulation pass of `createOrder`: add one item's
contribution to the running `(subtotal, makingCharges, totalWeight)` (a
missing product contributes nothing; unreachable after validation). -/
def lineStep (products : List Product) (acc : ℚ × ℚ × ℚ) (item : CartItem) : ℚ × ℚ × ℚ :=
  match products.find? (fun p => p.pid == item.productId) with
  | some p =>
    (acc.1 + item.price * (item.quantity : ℚ),
     acc.2.1 + p.makingCharges * (item.quantity : ℚ),
     acc.2.2 + p.weight * (item.quantity : ℚ))
  | none => acc

/-- The accumulation pass of `createOrder`: running
`(subtotal, makingCharges, totalWeight)` built up with `+=` over the cart
items. -/
def lineTotals (products : List Product) (items : List CartItem) : ℚ × ℚ × ℚ :=
  items.foldl (lineStep products) (0, 0, 0)

/-- The order-items snapshot `createOrder` builds from the cart. -/
def buildOrderItems (products : List Product) (items : List CartItem) : List OrderItem :=
  items.map (fun item =>
    match products.find? (fun p => p.pid == item.productId) with
    | some p => ⟨item.productId, p.name, item.quantity, item.price, p.weight⟩
    | none => ⟨item.productId, "", item.quantity, item.price, 0⟩)

/-- `totalWeight > 100 ? 200 : totalWeight > 50 ? 150 : 100`. -/
def shippingFor (totalWeight : ℚ) : ℚ :=
  if totalWeight > 100 then 200 else if totalWeight > 50 then 150 else 100

/-- The coupon block of `createOrder`, given the pre-discount total
`orderSubtotal = subtotal + makingCharges + gst + shippingCharges`: look the
code up among currently-valid active coupons, check the usage cap and
minimum order amount, compute the discount (percentage capped by
`maxDiscountAmount` when set, else the flat value), and increment
`usedCount`. Returns the discount and the updated coupon list. -/
def applyCoupon (coupons : List Coupon) (code : String) (orderSubtotal : ℚ) (now : Nat) :
    Except ApiErr (ℚ × List Coupon) :=
  match coupons.find? (fun c =>
      c.code == code.toUpper && c.isActive && decide (c.validFrom ≤ now) && decide (now ≤ c.validUntil)) with
  | none => .error ⟨400, "Invalid or expired coupon code"⟩
  | some c =>
    if c.usageLimit ≠ 0 ∧ c.usedCount ≥ c.usageLimit then
      .error ⟨400, "Coupon usage limit has been reached"⟩
    else if orderSubtotal < c.minOrderAmount then
      .error ⟨400, "Minimum order amount required for this coupon"⟩
    else
      let discount :=
        if c.discountType == "percentage" then
          let d := orderSubtotal * c.discountValue / 100
          if c.maxDiscountAmount ≠ 0 then min d c.maxDiscountAmount else d
        else c.discountValue
      .ok (discount,
        updateFirst (fun x => x.code == c.code) (fun x => { x with usedCount := x.usedCount + 1 })
          coupons)

/-- `createOrder` (POST `/orders/create`): load the user's cart (empty or
missing carts abort), re-validate every line item against current product
state, accumulate the totals, compute GST (3% of subtotal + making charges),
the weight-stepped shipping charge, and the coupon discount, then persist the
order (order number generated from `now` and `countDocuments()`, pricing
fields rounded to 2 decimals) in `pending`/`pending` state. `newId` stands
for the fresh Mongo `_id`. No stock, cart, or other mutation happens on this
path; the only writes are the coupon counter and the new order itself. -/
def createOrder (db : DB) (reqUserId : Nat) (paymentMethod : String)
    (couponCode : Option String) (now newId : Nat) : DB × Except ApiErr Order :=
  match db.carts.find? (fun c => c.userId == reqUserId) with
  | none => (db, .error ⟨400, "Cart is empty. Please add items to cart first"⟩)
  | some cart =>
    if cart.items.isEmpty then
      (db, .error ⟨400, "Cart is empty. Please add items to cart first"⟩)
    else
      match validateCartItems db.products cart.items with
      | some e => (db, .error e)
      | none =>
        let t := lineTotals db.products cart.items
        let subtotal := t.1
        let makingCharges := t.2.1
        let totalWeight := t.2.2
        let gst := (subtotal + makingCharges) * 3 / 100
        let shippingCharges := shippingFor totalWeight
        let dc : Except ApiErr (ℚ × List Coupon) :=
          match couponCode with
          | none => .ok (0, db.coupons)
          | some code => applyCoupon db.coupons code (subtotal + makingCharges + gst + shippingCharges) now
        match dc with
        | .error e => (db, .error e)
        | .ok (discount, coupons1) =>
          let total := subtotal + makingCharges + gst + shippingCharges - discount
          let order : Order :=
            { oid := newId
              orderNumber := genOrderNumber now db.orders.length
              userId := reqUserId
              items := buildOrderItems db.products cart.items
              pricing :=
                { subtotal := round2 subtotal
                  makingCharges := round2 makingCharges
                  gst := round2 gst
                  shippingCharges := shippingCharges
                  discount := round2 discount
                  total := round2 total }
              payment := ⟨paymentMethod, .pending, none, none, none, none⟩
              status := .pending
              statusHistory := []
              cancellationReason := none }
          ({ db with orders := db.orders ++ [order], coupons := coupons1 }, .ok order)

/-! ## Spec-side pricing formulas (the claim's Σ-expressions) -/

/-- `Σ unitPrice × qty` over the cart. -/
def specSubtotal (items : List CartItem) : ℚ :=
  (items.map (fun item => item.price * (item.quantity : ℚ))).sum

/-- `Σ productMakingCharge × qty` over the cart. -/
def specMaking (products : List Product) (items : List CartItem) : ℚ :=
  (items.map (fun item =>
    match products.find? (fun p => p.pid == item.productId) with
    | some p => p.makingCharges * (item.quantity : ℚ)
    | none => 0)).sum

/-- `Σ productWeight × qty` over the cart. -/
def specWeight (products : List Product) (items : List CartItem) : ℚ :=
  (items.map (fun item =>
    match products.find? (fun p => p.pid == item.productId) with
    | some p => p.weight * (item.quantity : ℚ)
    | none => 0)).sum

/-- The claim's step function: `≤ 50 → 100`, `≤ 100 → 150`, `> 100 → 200`. -/
def specShipping (totalWeight : ℚ) : ℚ :=
  if totalWeight ≤ 50 then 100 else if totalWeight ≤ 100 then 150 else 200

/-! ## Generic lemmas about `updateFirst` -/

theorem updateFirst_nil (p : α → Bool) (f : α → α) : updateFirst p f [] = [] := rfl

/-- Updating the first `p`-match commutes with searching for it, provided the
update preserves `p`. -/
theorem find?_updateFirst_same (p : α → Bool) (f : α → α)
    (hf : ∀ a, p a = true → p (f a) = true) :
    ∀ l : List α, (updateFirst p f l).find? p = (l.find? p).map f := by
  intro l
  induction l with
  | nil => rfl
  | cons x xs ih =>
    by_cases hx : p x = true
    · simp [updateFirst, hx, List.find?, hf x hx]
    · simp only [updateFirst, hx]
      simp only [Bool.not_eq_true] at hx
      simp [List.find?, hx, ih]

/-- Updating the first `q`-match leaves a `p`-search untouched when no
element, before or after the update, can satisfy both predicates. -/
theorem find?_updateFirst_disjoint (p q : α → Bool) (f : α → α)
    (h1 : ∀ a, q a = true → p a = false) (h2 : ∀ a, q a = true → p (f a) = false) :
    ∀ l : List α, (updateFirst q f l).find? p = l.find? p := by
  intro l
  induction l with
  | nil => rfl
  | cons x xs ih =>
    by_cases hx : q x = true
    · simp [updateFirst, hx, List.find?, h1 x hx, h2 x hx]
    · simp only [updateFirst, hx]
      simp only [Bool.not_eq_true] at hx
      by_cases hp : p x = true
      · simp [List.find?, hx, hp]
      · simp only [Bool.not_eq_true] at hp
        simp [List.find?, hx, hp, ih]

/-- Every element of `updateFirst p f l` is an element of `l` or the image
under `f` of one. -/
theorem mem_updateFirst (p : α → Bool) (f : α → α) :
    ∀ l : List α, ∀ a ∈ updateFirst p f l, a ∈ l ∨ ∃ b ∈ l, a = f b := by
  intro l
  induction l with
  | nil => intro a ha; simp [updateFirst] at ha
  | cons x xs ih =>
    intro a ha
    by_cases hx : p x = true
    · simp only [updateFirst, hx, if_pos] at ha
      rcases List.mem_cons.mp ha with h | h
      · exact Or.inr ⟨x, List.mem_cons_self .., h⟩
      · exact Or.inl (List.mem_cons_of_mem _ h)
    · simp only [updateFirst, hx] at ha
      rcases List.mem_cons.mp ha with h | h
      · exact Or.inl (h ▸ List.mem_cons_self ..)
      · rcases ih a h with h' | ⟨b, hb, hab⟩
        · exact Or.inl (List.mem_cons_of_mem _ h')
        · exact Or.inr ⟨b, List.mem_cons_of_mem _ hb, hab⟩

/-- `updateFirst` relates pointwise to the original list: every element is
either kept or is the `f`-image of a `p`-element in its place. -/
theorem forall₂_updateFirst (R : α → α → Prop) (p : α → Bool) (f : α → α)
    (hrefl : ∀ a, R a a) :
    ∀ l : List α, (∀ a ∈ l, p a = true → R a (f a)) →
      List.Forall₂ R l (updateFirst p f l) := by
  intro l
  induction l with
  | nil => intro _; exact List.Forall₂.nil
  | cons x xs ih =>
    intro hupd
    by_cases hx : p x = true
    · simp only [updateFirst, hx, if_pos]
      exact List.Forall₂.cons (hupd x (List.mem_cons_self ..) hx)
        (List.forall₂_same.mpr fun a _ => hrefl a)
    · simp only [updateFirst, hx]
      exact List.Forall₂.cons (hrefl x)
        (ih fun a ha hpa => hupd a (List.mem_cons_of_mem _ ha) hpa)

/-- With pairwise-distinct keys, searching for a member's key finds exactly
that member. -/
theorem find?_key_of_mem_nodup (key : α → Nat) (a : α) :
    ∀ l : List α, a ∈ l → (l.map key).Nodup →
      l.find? (fun x => key x == key a) = some a := by
  intro l
  induction l with
  | nil => intro ha _; simp at ha
  | cons x xs ih =>
    intro ha hnd
    simp only [List.map_cons, List.nodup_cons] at hnd
    rcases List.mem_cons.mp ha with rfl | ha'
    · simp [List.find?]
    · have hx : (key x == key a) = false := by
        simp only [beq_eq_false_iff_ne, ne_eq]
        intro he
        exact hnd.1 (he ▸ List.mem_map_of_mem key ha')
      simp [List.find?, hx, ih ha' hnd.2]

/-! ## Field lemmas for the status-history hook -/

theorem orderStatusHook_payment (s : OrderStatus) (now : Nat) (o : Order) :
    (orderStatusHook s now o).payment = o.payment := by
  unfold orderStatusHook; split <;> rfl

theorem orderStatusHook_status (s : OrderStatus) (now : Nat) (o : Order) :
    (orderStatusHook s now o).status = o.status := by
  unfold orderStatusHook; split <;> rfl

theorem orderStatusHook_items (s : OrderStatus) (now : Nat) (o : Order) :
    (orderStatusHook s now o).items = o.items := by
  unfold orderStatusHook; split <;> rfl

theorem orderStatusHook_oid (s : OrderStatus) (now : Nat) (o : Order) :
    (orderStatusHook s now o).oid = o.oid := by
  unfold orderStatusHook; split <;> rfl

theorem orderStatusHook_history_of_ne (s : OrderStatus) (now : Nat) (o : Order)
    (h : o.status ≠ s) :
    (orderStatusHook s now o).statusHistory =
      o.statusHistory ++ [⟨o.status, none, none, now⟩] := by
  unfold orderStatusHook
  rw [if_pos h]

theorem orderStatusHook_history_of_eq (s : OrderStatus) (now : Nat) (o : Order)
    (h : o.status = s) : orderStatusHook s now o = o := by
  unfold orderStatusHook
  rw [if_neg (by simpa using h)]

/-! ## Stock-fold lemmas -/

/-- Total quantity the order's items hold of product `pid`. -/
def orderedQty (pid : Nat) (items : List OrderItem) : Int :=
  ((items.filter (fun it => it.productId == pid)).map (fun it => (it.quantity : Int))).sum

/-- The `$inc` restock loop adds, to the first document of each referenced
product id, exactly the summed ordered quantity — and touches nothing else
about it. -/
theorem find?_restoreStock (pid : Nat) :
    ∀ (items : List OrderItem) (products : List Product),
    (restoreStockForItems items products).find? (fun p => p.pid == pid) =
      (products.find? (fun p => p.pid == pid)).map
        (fun p => { p with stock := { p.stock with quantity := p.stock.quantity + orderedQty pid items } }) := by
  intro items
  induction items with
  | nil =>
    intro products
    simp only [restoreStockForItems, List.foldl_nil, orderedQty, List.filter_nil,
      List.map_nil, List.sum_nil, add_zero]
    cases products.find? (fun p => p.pid == pid) <;> rfl
  | cons it rest ih =>
    intro products
    have step : restoreStockForItems (it :: rest) products =
        restoreStockForItems rest
          (updateFirst (fun p => p.pid == it.productId)
            (fun p => { p with stock := { p.stock with quantity := p.stock.quantity + it.quantity } })
            products) := rfl
    rw [step, ih]
    by_cases h : it.productId = pid
    · subst h
      have hsame := find?_updateFirst_same (fun p : Product => p.pid == it.productId)
        (fun p => { p with stock := { p.stock with quantity := p.stock.quantity + (it.quantity : Int) } })
        (fun a ha => ha) products
      rw [hsame]
      have hq : orderedQty it.productId (it :: rest) = it.quantity + orderedQty it.productId rest := by
        simp [orderedQty, List.filter_cons]
      rw [hq]
      cases products.find? (fun p => p.pid == it.productId) <;>
        simp [Option.map, add_assoc]
    · have hdisj := find?_updateFirst_disjoint (fun p : Product => p.pid == pid)
        (fun p : Product => p.pid == it.productId)
        (fun p => { p with stock := { p.stock with quantity := p.stock.quantity + (it.quantity : Int) } })
        (fun a ha => by simp_all) (fun a ha => by simp_all) products
      rw [hdisj]
      have hq : orderedQty pid (it :: rest) = orderedQty pid rest := by
        simp [orderedQty, List.filter_cons, h]
      rw [hq]

/-- The derived-field invariant of C9: `stock.isInStock = (stock.quantity > 0)`. -/
def stockInvariant (p : Product) : Prop :=
  p.stock.isInStock = decide (p.stock.quantity > 0)

instance (p : Product) : Decidable (stockInvariant p) :=
  inferInstanceAs (Decidable (_ = _))

/-- The product pre-`save` hook establishes the invariant unconditionally. -/
theorem stockInvariant_productSaveHook (p : Product) : stockInvariant (productSaveHook p) := rfl

/-- The `save()`-based stock-decrement loop preserves the invariant for the
whole collection: untouched products keep both fields, touched ones pass
through the hook. -/
theorem stockInvariant_decrementStock (items : List OrderItem) :
    ∀ products : List Product, (∀ p ∈ products, stockInvariant p) →
      ∀ p ∈ decrementStockForItems items products, stockInvariant p := by
  induction items with
  | nil => intro products h p hp; exact h p hp
  | cons it rest ih =>
    intro products h p hp
    have step : decrementStockForItems (it :: rest) products =
        decrementStockForItems rest
          (updateFirst (fun p => p.pid == it.productId)
            (fun p => productSaveHook
              { p with stock := { p.stock with quantity := p.stock.quantity - it.quantity } })
            products) := rfl
    rw [step] at hp
    refine ih _ ?_ p hp
    intro q hq
    rcases mem_updateFirst _ _ _ q hq with h' | ⟨b, _, rfl⟩
    · exact h q h'
    · exact stockInvariant_productSaveHook _

/-- Two members that share a key are the same element when the key column has
no duplicates. -/
theorem eq_of_key_eq_of_mem_nodup (key : α → Nat) (l : List α) (a b : α)
    (ha : a ∈ l) (hb : b ∈ l) (hnd : (l.map key).Nodup) (hk : key a = key b) : a = b := by
  have h1 := find?_key_of_mem_nodup key a l ha hnd
  have h2 := find?_key_of_mem_nodup key b l hb hnd
  rw [hk] at h1
  rw [h1] at h2
  exact (Option.some.injEq _ _ ▸ h2)

/-! ## C10 — the `refund.processed` webhook path is a pure
`payment.status` update -/

/-- **C10.** The `refund.processed` webhook handler mutates only
`payment.status` (setting it to `refunded`) on the order matched by the
gateway payment id: products (hence all stock quantities), carts, coupons,
and every other field of every order — status, items, statusHistory,
pricing — are left unchanged; in particular stock restoration and order
cancellation happen only in `initiateRefund`, not on this path. -/
theorem handleRefundProcessed_frame (db : DB) (paymentId : String) (now : Nat)
    (hnd : (db.orders.map Order.oid).Nodup) :
    (handleRefundProcessed db paymentId now).products = db.products ∧
    (handleRefundProcessed db paymentId now).carts = db.carts ∧
    (handleRefundProcessed db paymentId now).coupons = db.coupons ∧
    List.Forall₂ (fun o o' =>
        o'.status = o.status ∧ o'.items = o.items ∧
        o'.statusHistory = o.statusHistory ∧ o'.orderNumber = o.orderNumber ∧
        o'.userId = o.userId ∧ o'.pricing = o.pricing ∧
        o'.payment.method = o.payment.method ∧
        o'.payment.razorpayPaymentId = o.payment.razorpayPaymentId ∧
        (o' = o ∨ (o.payment.razorpayPaymentId = some paymentId ∧
          o'.payment.status = .refunded)))
      db.orders (handleRefundProcessed db paymentId now).orders ∧
    (∀ o, db.orders.find? (fun x => x.payment.razorpayPaymentId == some paymentId) = some o →
      (handleRefundProcessed db paymentId now).orders.find? (fun x => x.oid == o.oid) =
        some { o with payment := { o.payment with status := .refunded } }) := by
  unfold handleRefundProcessed
  cases hfind : db.orders.find? (fun o => o.payment.razorpayPaymentId == some paymentId) with
  | none =>
    refine ⟨rfl, rfl, rfl, ?_, ?_⟩
    · exact List.forall₂_same.mpr fun o _ => ⟨rfl, rfl, rfl, rfl, rfl, rfl, rfl, rfl, Or.inl rfl⟩
    · intro o ho
      exact absurd ho (by simp)
  | some order =>
    have hmem : order ∈ db.orders := List.mem_of_find?_eq_some hfind
    have hpid : order.payment.razorpayPaymentId = some paymentId := by
      have := List.find?_some hfind
      simpa using this
    have ho1 : orderStatusHook order.status now
        { order with payment := { order.payment with status := .refunded } } =
        { order with payment := { order.payment with status := .refunded } } :=
      orderStatusHook_history_of_eq _ _ _ rfl
    simp only [ho1]
    refine ⟨trivial, trivial, trivial, ?_, ?_⟩
    · refine forall₂_updateFirst _ _ _
        (fun o => ⟨rfl, rfl, rfl, rfl, rfl, rfl, rfl, rfl, Or.inl rfl⟩) _ ?_
      intro a ha hpa
      have haeq : a = order :=
        eq_of_key_eq_of_mem_nodup Order.oid db.orders a order ha hmem hnd (by simpa using hpa)
      subst haeq
      exact ⟨rfl, rfl, rfl, rfl, rfl, rfl, rfl, rfl, Or.inr ⟨hpid, rfl⟩⟩
    · intro o ho
      have hoo : o = order := by
        injection ho with h
        exact h.symm
      subst hoo
      have hsame := find?_updateFirst_same (fun x : Order => x.oid == o.oid)
        (fun _ => { o with payment := { o.payment with status := .refunded } })
        (fun a _ => by simp) db.orders
      rw [hsame, find?_key_of_mem_nodup Order.oid o db.orders hmem hnd]
      rfl

/-- A demo order sitting in `completed`/`confirmed`, as left by a successful
payment. -/
def paidOrder : Order :=
  { oid := 1, orderNumber := "LS17000000000000001", userId := 7
    items := [⟨1, "Silver Ring", 2, 1000, 10⟩]
    pricing := ⟨2000, 100, 63, 100, 0, 2263⟩
    payment := ⟨"razorpay", .completed, some "order_1", some "pay_1", some "sig", some 10⟩
    status := .confirmed, statusHistory := [], cancellationReason := none }

/-- A demo product with five units on the shelf. -/
def ringProduct : Product := ⟨1, "Silver Ring", true, 1000, 50, 10, ⟨5, true⟩⟩

/-- A demo database holding the paid order. -/
def paidDB : DB := ⟨[paidOrder], [ringProduct], [⟨7, [], 0⟩], []⟩

/-- **C10 witness.** The frame theorem evaluated on `paidDB` for payment
`pay_1`. -/
theorem handleRefundProcessed_frame_witness :
    (paidDB.orders.map Order.oid).Nodup ∧
    (handleRefundProcessed paidDB "pay_1" 99).products = paidDB.products ∧
    (handleRefundProcessed paidDB "pay_1" 99).orders.find? (fun x => x.oid == paidOrder.oid) =
      some { paidOrder with payment := { paidOrder.payment with status := .refunded } } := by
  have h := handleRefundProcessed_frame paidDB "pay_1" 99 (by decide)
  exact ⟨by decide, h.1, h.2.2.2.2 paidOrder (by decide)⟩

/-! ## C6 — admin-initiated refund restores stock -/

/-- **C6.** For every order whose `payment.status` is `completed` (and which
carries a gateway payment id), `initiateRefund` succeeds, sets
`payment.status = 'refunded'` and order `status = 'cancelled'`, leaves the
carts alone, and increments each product's `stock.quantity` by exactly the
total quantity the order's items hold of it. -/
theorem initiateRefund_restores_stock (db : DB) (orderId : Nat) (reason : Option String)
    (now : Nat) (order : Order)
    (hfind : db.orders.find? (fun o => o.oid == orderId) = some order)
    (hcomp : order.payment.status = .completed)
    (hpay : order.payment.razorpayPaymentId ≠ none) :
    ∃ db', initiateRefund db orderId reason now = (db', .ok ()) ∧
      (∃ o', db'.orders.find? (fun x => x.oid == orderId) = some o' ∧
        o'.payment.status = .refunded ∧ o'.status = .cancelled ∧ o'.items = order.items) ∧
      (∀ pid p, db.products.find? (fun x => x.pid == pid) = some p →
        db'.products.find? (fun x => x.pid == pid) =
          some { p with stock := { p.stock with
            quantity := p.stock.quantity + orderedQty pid order.items } }) ∧
      db'.carts = db.carts := by
  have horder : order.oid = orderId := by
    have := List.find?_some hfind
    simpa using this
  subst horder
  unfold initiateRefund
  rw [hfind]
  simp only [hcomp]
  rw [if_neg (by simp), if_neg hpay]
  refine ⟨_, rfl, ⟨orderStatusHook order.status now
      { order with
        payment := { order.payment with status := .refunded }
        status := .cancelled
        cancellationReason := some (reason.getD "Refund initiated by admin") },
      ?_, ?_, ?_, ?_⟩, ?_, rfl⟩
  · have hsame := find?_updateFirst_same (fun x : Order => x.oid == order.oid)
      (fun _ => orderStatusHook order.status now
        { order with
          payment := { order.payment with status := .refunded }
          status := .cancelled
          cancellationReason := some (reason.getD "Refund initiated by admin") })
      (fun a _ => by simp [orderStatusHook_oid]) db.orders
    rw [hsame, hfind]
    rfl
  · rw [orderStatusHook_payment]
  · rw [orderStatusHook_status]
  · rw [orderStatusHook_items]
  · intro pid p hp
    rw [find?_restoreStock pid order.items db.products, hp]
    rfl

/-- **C6 witness.** The refund theorem evaluated on `paidDB`: the two
ordered units come back to the shelf (5 → 7). -/
theorem initiateRefund_restores_stock_witness :
    (paidDB.orders.find? (fun o => o.oid == 1) = some paidOrder) ∧
    paidOrder.payment.status = .completed ∧
    (∃ db', initiateRefund paidDB 1 none 99 = (db', .ok ()) ∧
      (∃ o', db'.orders.find? (fun x => x.oid == 1) = some o' ∧
        o'.payment.status = .refunded ∧ o'.status = .cancelled ∧ o'.items = paidOrder.items) ∧
      (∀ pid p, paidDB.products.find? (fun x => x.pid == pid) = some p →
        db'.products.find? (fun x => x.pid == pid) =
          some { p with stock := { p.stock with
            quantity := p.stock.quantity + orderedQty pid paidOrder.items } }) ∧
      db'.carts = paidDB.carts) ∧
    ((initiateRefund paidDB 1 none 99).1.products.find? (fun x => x.pid == 1)).map
      (fun p => p.stock.quantity) = some 7 := by
  refine ⟨by decide, by decide, ?_, by decide⟩
  exact initiateRefund_restores_stock paidDB 1 none 99 paidOrder (by decide) (by decide) (by decide)

/-! ## C5 — invalid signatures fail closed -/

/-- **C5.** For a pending order, a synchronous verify call with an invalid
payment signature marks only `payment.status = 'failed'` (order status and
history unchanged — the returned document is the input order with just that
field replaced), mutates no product or cart state, and reports the 400
error; and a webhook request with an invalid webhook signature is rejected
with 400 before any order, stock, or cart mutation: the database comes back
untouched. -/
theorem invalid_signature_fails_closed (db : DB) (keySecret webhookSecret rawBody : List Nat)
    (reqUserId orderId : Nat) (roid rpid sig : String) (body : WebhookBody)
    (sigHeader : String) (now : Nat) (order : Order)
    (hfind : db.orders.find? (fun o => o.oid == orderId) = some order)
    (howner : order.userId = reqUserId)
    (hpending : order.payment.status = .pending)
    (hbad : verifyPaymentSignature keySecret roid rpid sig = false)
    (hbadw : verifyWebhookSignature webhookSecret rawBody sigHeader = false) :
    (∃ db', verifyPayment db keySecret reqUserId orderId roid rpid sig now =
        (db', .error ⟨400, "Payment verification failed. Invalid signature."⟩) ∧
      db'.products = db.products ∧ db'.carts = db.carts ∧
      db'.orders.find? (fun x => x.oid == orderId) =
        some { order with payment := { order.payment with status := .failed } }) ∧
    handleWebhook db webhookSecret rawBody body sigHeader now =
      (db, .error ⟨400, "Invalid webhook signature"⟩) := by
  constructor
  · have horder : order.oid = orderId := by
      have := List.find?_some hfind
      simpa using this
    subst horder
    unfold verifyPayment
    rw [hfind]
    simp only []
    rw [if_neg (by simp [howner]), if_pos (by simp [hbad])]
    have hhook : orderStatusHook order.status now
        { order with payment := { order.payment with status := .failed } } =
        { order with payment := { order.payment with status := .failed } } :=
      orderStatusHook_history_of_eq _ _ _ rfl
    refine ⟨_, rfl, rfl, rfl, ?_⟩
    have hsame := find?_updateFirst_same (fun x : Order => x.oid == order.oid)
      (fun _ => orderStatusHook order.status now
        { order with payment := { order.payment with status := .failed } })
      (fun a _ => by simp [orderStatusHook_oid]) db.orders
    rw [hsame, hfind, hhook]
    rfl
  · unfold handleWebhook
    rw [if_pos (by simp [hbadw])]

/-- A demo order still awaiting payment. -/
def pendingOrder : Order :=
  { oid := 1, orderNumber := "LS17000000000000001", userId := 7
    items := [⟨1, "Silver Ring", 2, 1000, 10⟩]
    pricing := ⟨2000, 100, 63, 100, 0, 2263⟩
    payment := ⟨"razorpay", .pending, some "order_1", none, none, none⟩
    status := .pending, statusHistory := [], cancellationReason := none }

/-- A demo database holding the pending order, its product, and the user's
cart. -/
def pendingDB : DB :=
  ⟨[pendingOrder], [⟨1, "Silver Ring", true, 1000, 50, 10, ⟨10, true⟩⟩],
   [⟨7, [⟨1, 2, 1000⟩], 2000⟩], []⟩

/-- **C5 witness.** The fail-closed theorem evaluated on `pendingDB` with a
garbage payment signature and a garbage webhook signature. -/
theorem invalid_signature_fails_closed_witness :
    verifyPaymentSignature (strBytes "rzpkeysecret") "order_1" "pay_1" "deadbeef" = false ∧
    verifyWebhookSignature (strBytes "whsec") (strBytes "x") "deadbeef" = false ∧
    ((∃ db', verifyPayment pendingDB (strBytes "rzpkeysecret") 7 1 "order_1" "pay_1" "deadbeef" 55 =
        (db', .error ⟨400, "Payment verification failed. Invalid signature."⟩) ∧
      db'.products = pendingDB.products ∧ db'.carts = pendingDB.carts ∧
      db'.orders.find? (fun x => x.oid == 1) =
        some { pendingOrder with payment := { pendingOrder.payment with status := .failed } }) ∧
    handleWebhook pendingDB (strBytes "whsec") (strBytes "x")
        ⟨"payment.captured", ⟨1, "order_1", "pay_1"⟩, "pay_1"⟩ "deadbeef" 55 =
      (pendingDB, .error ⟨400, "Invalid webhook signature"⟩)) := by
  refine ⟨by decide, by decide, ?_⟩
  exact invalid_signature_fails_closed pendingDB (strBytes "rzpkeysecret") (strBytes "whsec")
    (strBytes "x") 7 1 "order_1" "pay_1" "deadbeef"
    ⟨"payment.captured", ⟨1, "order_1", "pay_1"⟩, "pay_1"⟩ "deadbeef" 55 pendingOrder
    (by decide) (by decide) (by decide) (by decide) (by decide)

/-! ## C1 — duplicate delivery of a successful payment

The webhook handler carries the idempotency guard (a second
`payment.captured` for a completed order is a no-op), but the synchronous
verify endpoint re-processes a completed order, so "webhook + verify"
applies the stock decrement twice. -/

/-- **C1 (amended).** Duplicate *webhook* delivery is idempotent: a
`payment.captured` event for an order whose `payment.status` is already
`completed` leaves the database exactly as it is — no stock, cart, or
order mutation. -/
theorem handlePaymentCaptured_idempotent (db : DB) (payload : CapturedPayload) (now : Nat)
    (order : Order)
    (hfind : db.orders.find? (fun o => o.oid == payload.orderId) = some order)
    (hdone : order.payment.status = .completed) :
    handlePaymentCaptured db payload now = db := by
  unfold handlePaymentCaptured
  rw [hfind]
  simp [hdone]

/-- **C1 witness.** The idempotency theorem evaluated on `paidDB`: replaying
the captured event changes nothing. -/
theorem handlePaymentCaptured_idempotent_witness :
    (paidDB.orders.find? (fun o => o.oid == 1) = some paidOrder) ∧
    paidOrder.payment.status = .completed ∧
    handlePaymentCaptured paidDB ⟨1, "order_1", "pay_1"⟩ 99 = paidDB :=
  ⟨by decide, by decide,
    handlePaymentCaptured_idempotent paidDB ⟨1, "order_1", "pay_1"⟩ 99 paidOrder
      (by decide) (by decide)⟩

/-- The Razorpay key secret of the C1 scenario. -/
def c1Secret : List Nat := strBytes "rzpkeysecret"

/-- The state after the gateway's `payment.captured` webhook has confirmed
the pending demo order: stock went 10 → 8, the cart was cleared, the order
is `completed`/`confirmed`. -/
def c1AfterWebhook : DB := handlePaymentCaptured pendingDB ⟨1, "order_1", "pay_1"⟩ 100

/-- The genuine signature for the same payment, exactly as the client would
forward it to the verify endpoint. -/
def c1ValidSig : String := hmacSha256Hex c1Secret (strBytes ("order_1" ++ "|" ++ "pay_1"))

/-- The state after the synchronous verify call for the *same* payment also
succeeds. -/
def c1AfterBoth : DB :=
  (verifyPayment c1AfterWebhook c1Secret 7 1 "order_1" "pay_1" c1ValidSig 200).1

/-- **C1 counterexample.** After the webhook confirms the order the stock is
8; the claim says a subsequent successful verify call for the same payment
must apply no further stock effect, yet it drives the stock to 6 — the
decrement ran twice (10 − 2·2, not 10 − 2). -/
theorem duplicate_delivery_double_decrements :
    ((c1AfterWebhook.products.find? (fun p => p.pid == 1)).map (fun p => p.stock.quantity) =
      some 8) ∧
    ((c1AfterBoth.products.find? (fun p => p.pid == 1)).map (fun p => p.stock.quantity) =
      some 6) ∧
    ((6 : Int) = 10 - 2 → False) := by
  refine ⟨by decide, by decide, by decide⟩

/-! ## C3 — a bad line item aborts checkout with zero side effects -/

/-- A line item that must make checkout abort: its product is missing,
inactive, or short on stock. -/
def itemUnavailable (products : List Product) (it : CartItem) : Bool :=
  match products.find? (fun p => p.pid == it.productId) with
  | none => true
  | some p => !p.isActive || decide (p.stock.quantity < it.quantity)

/-- The re-validation loop reports an error whenever some item is bad. -/
theorem validateCartItems_isSome_of_bad (products : List Product) :
    ∀ items : List CartItem, (∃ it ∈ items, itemUnavailable products it = true) →
      ∃ e, validateCartItems products items = some e := by
  intro items
  induction items with
  | nil => rintro ⟨it, hit, _⟩; simp at hit
  | cons x rest ih =>
    rintro ⟨it, hit, hbad⟩
    unfold validateCartItems
    cases hfp : products.find? (fun p => p.pid == x.productId) with
    | none => exact ⟨_, rfl⟩
    | some p =>
      dsimp only
      by_cases hact : p.isActive = true
      · by_cases hqty : p.stock.quantity < (x.quantity : Int)
        · rw [if_neg (fun h => h hact), if_pos hqty]
          exact ⟨_, rfl⟩
        · rw [if_neg (fun h => h hact), if_neg hqty]
          rcases List.mem_cons.mp hit with rfl | hit'
          · exfalso
            rw [itemUnavailable, hfp] at hbad
            simp [hact, hqty] at hbad
          · exact ih ⟨it, hit', hbad⟩
      · rw [if_pos (by simpa using hact)]
        exact ⟨_, rfl⟩

/-- **C3.** If the user's cart contains any line item whose product is
missing, inactive, or under-stocked, `createOrder` reports an error and
returns the database *exactly* as it was: no order appended, no product
mutated, no coupon counter incremented. -/
theorem createOrder_aborts_on_bad_item (db : DB) (reqUserId : Nat) (pm : String)
    (cc : Option String) (now newId : Nat) (cart : Cart)
    (hcart : db.carts.find? (fun c => c.userId == reqUserId) = some cart)
    (hbad : ∃ it ∈ cart.items, itemUnavailable db.products it = true) :
    ∃ e, createOrder db reqUserId pm cc now newId = (db, .error e) := by
  obtain ⟨e, he⟩ := validateCartItems_isSome_of_bad db.products cart.items hbad
  unfold createOrder
  rw [hcart]
  dsimp only
  have hne : cart.items.isEmpty = false := by
    obtain ⟨it, hit, _⟩ := hbad
    cases h : cart.items with
    | nil => rw [h] at hit; simp at hit
    | cons a l => simp [List.isEmpty]
  rw [if_neg (by simp [hne]), he]
  exact ⟨e, rfl⟩

/-- A demo database for the abort case: the cart wants five rings but only
two are on the shelf. -/
def underStockedDB : DB :=
  ⟨[], [⟨1, "Silver Ring", true, 1000, 50, 10, ⟨2, true⟩⟩],
   [⟨7, [⟨1, 5, 1000⟩], 5000⟩], []⟩

/-- **C3 witness.** The abort theorem evaluated on `underStockedDB`, plus the
concrete check that the database component really is untouched. -/
theorem createOrder_aborts_on_bad_item_witness :
    (itemUnavailable underStockedDB.products ⟨1, 5, 1000⟩ = true) ∧
    (∃ e, createOrder underStockedDB 7 "razorpay" none 1000 99 = (underStockedDB, .error e)) := by
  refine ⟨by decide, ?_⟩
  exact createOrder_aborts_on_bad_item underStockedDB 7 "razorpay" none 1000 99
    ⟨7, [⟨1, 5, 1000⟩], 5000⟩ (by decide) ⟨⟨1, 5, 1000⟩, by decide, by decide⟩

/-! ## C2 — checkout pricing -/

/-- When the re-validation loop passes, every item's product is found. -/
theorem validateCartItems_found (products : List Product) :
    ∀ items : List CartItem, validateCartItems products items = none →
      ∀ it ∈ items, ∃ p, products.find? (fun x => x.pid == it.productId) = some p := by
  intro items
  induction items with
  | nil => intro _ it hit; simp at hit
  | cons x rest ih =>
    intro hv it hit
    unfold validateCartItems at hv
    cases hfp : products.find? (fun p => p.pid == x.productId) with
    | none => rw [hfp] at hv; simp at hv
    | some p =>
      rw [hfp] at hv
      dsimp only at hv
      by_cases h1 : ¬ p.isActive = true
      · rw [if_pos h1] at hv; simp at hv
      · rw [if_neg h1] at hv
        by_cases h2 : p.stock.quantity < (x.quantity : Int)
        · rw [if_pos h2] at hv; simp at hv
        · rw [if_neg h2] at hv
          rcases List.mem_cons.mp hit with rfl | hit'
          · exact ⟨p, hfp⟩
          · exact ih hv it hit'

/-- The `+=` accumulation of `createOrder` computes exactly the spec's three
Σ-expressions, whatever the starting accumulator. -/
theorem foldl_lineStep_eq (products : List Product) :
    ∀ (items : List CartItem) (acc : ℚ × ℚ × ℚ),
      (∀ it ∈ items, ∃ p, products.find? (fun x => x.pid == it.productId) = some p) →
      items.foldl (lineStep products) acc =
        (acc.1 + specSubtotal items, acc.2.1 + specMaking products items,
         acc.2.2 + specWeight products items) := by
  intro items
  induction items with
  | nil =>
    intro acc _
    simp [specSubtotal, specMaking, specWeight]
  | cons x rest ih =>
    intro acc hall
    obtain ⟨p, hp⟩ := hall x (List.mem_cons_self ..)
    have hstep : lineStep products acc x =
        (acc.1 + x.price * (x.quantity : ℚ),
         acc.2.1 + p.makingCharges * (x.quantity : ℚ),
         acc.2.2 + p.weight * (x.quantity : ℚ)) := by
      rw [lineStep, hp]
    rw [List.foldl_cons, hstep,
      ih _ (fun it hit => hall it (List.mem_cons_of_mem _ hit))]
    have h1 : specSubtotal (x :: rest) = x.price * (x.quantity : ℚ) + specSubtotal rest := by
      simp [specSubtotal]
    have h2 : specMaking products (x :: rest) =
        p.makingCharges * (x.quantity : ℚ) + specMaking products rest := by
      simp [specMaking, hp]
    have h3 : specWeight products (x :: rest) =
        p.weight * (x.quantity : ℚ) + specWeight products rest := by
      simp [specWeight, hp]
    rw [h1, h2, h3]
    refine Prod.ext ?_ (Prod.ext ?_ ?_) <;> dsimp only <;> ring

/-- The accumulated totals are the spec's Σ-expressions. -/
theorem lineTotals_eq_spec (products : List Product) (items : List CartItem)
    (hall : ∀ it ∈ items, ∃ p, products.find? (fun x => x.pid == it.productId) = some p) :
    lineTotals products items =
      (specSubtotal items, specMaking products items, specWeight products items) := by
  rw [lineTotals, foldl_lineStep_eq products items (0, 0, 0) hall]
  norm_num

/-- The source's conditional-expression shipping charge is the spec's step
function. -/
theorem shippingFor_eq_spec (w : ℚ) : shippingFor w = specShipping w := by
  unfold shippingFor specShipping
  split_ifs <;> first | rfl | linarith

/-- **C2.** For every non-empty cart that passes re-validation (products
present, active, sufficiently stocked), `createOrder` with no coupon
persists a pricing block whose fields satisfy the claim's formulas:
`gst = 3% × (subtotal + makingCharges)`, `shippingCharges` the weight step
function, `discount = 0`, and
`total = subtotal + makingCharges + gst + shippingCharges − discount`, with
monetary fields rounded half-up to 2 decimals. -/
theorem createOrder_pricing (db : DB) (reqUserId : Nat) (pm : String) (now newId : Nat)
    (cart : Cart)
    (hcart : db.carts.find? (fun c => c.userId == reqUserId) = some cart)
    (hne : cart.items.isEmpty = false)
    (hvalid : validateCartItems db.products cart.items = none) :
    ∃ order, (createOrder db reqUserId pm none now newId).2 = .ok order ∧
      order.pricing.subtotal = round2 (specSubtotal cart.items) ∧
      order.pricing.makingCharges = round2 (specMaking db.products cart.items) ∧
      order.pricing.gst =
        round2 (3 / 100 * (specSubtotal cart.items + specMaking db.products cart.items)) ∧
      order.pricing.shippingCharges = specShipping (specWeight db.products cart.items) ∧
      order.pricing.discount = 0 ∧
      order.pricing.total =
        round2 (specSubtotal cart.items + specMaking db.products cart.items +
          3 / 100 * (specSubtotal cart.items + specMaking db.products cart.items) +
          specShipping (specWeight db.products cart.items) - 0) := by
  have hall := validateCartItems_found db.products cart.items hvalid
  have hlt := lineTotals_eq_spec db.products cart.items hall
  unfold createOrder
  rw [hcart]
  dsimp only
  rw [if_neg (by simp [hne]), hvalid]
  dsimp only
  rw [hlt]
  dsimp only
  refine ⟨_, rfl, rfl, rfl, ?_, ?_, ?_, ?_⟩
  · exact congrArg round2 (by ring)
  · exact shippingFor_eq_spec _
  · simp [round2]
  · rw [shippingFor_eq_spec]
    exact congrArg round2 (by ring)

/-- The claim's worked example: one product, 2 units at price 1000, making
charge 50/unit, weight 10 kg/unit, plenty of stock. -/
def exampleDB : DB :=
  ⟨[], [⟨1, "Product A", true, 1000, 50, 10, ⟨5, true⟩⟩],
   [⟨7, [⟨1, 2, 1000⟩], 2000⟩], []⟩

unseal Rat.mul Rat.add Rat.sub Rat.inv Rat.ofScientific in
/-- **C2 witness.** The pricing theorem evaluated on the claim's example
cart, together with the concrete persisted pricing block
`subtotal = 2000, makingCharges = 100, gst = 63, shipping = 100,
discount = 0, total = 2263`. -/
theorem createOrder_pricing_witness :
    (validateCartItems exampleDB.products ((⟨7, [⟨1, 2, 1000⟩], 2000⟩ : Cart)).items = none) ∧
    (∃ order, (createOrder exampleDB 7 "razorpay" none 1700000000000 99).2 = .ok order ∧
      order.pricing.subtotal = round2 (specSubtotal [⟨1, 2, 1000⟩]) ∧
      order.pricing.makingCharges = round2 (specMaking exampleDB.products [⟨1, 2, 1000⟩]) ∧
      order.pricing.gst =
        round2 (3 / 100 * (specSubtotal [⟨1, 2, 1000⟩] + specMaking exampleDB.products [⟨1, 2, 1000⟩])) ∧
      order.pricing.shippingCharges = specShipping (specWeight exampleDB.products [⟨1, 2, 1000⟩]) ∧
      order.pricing.discount = 0 ∧
      order.pricing.total =
        round2 (specSubtotal [⟨1, 2, 1000⟩] + specMaking exampleDB.products [⟨1, 2, 1000⟩] +
          3 / 100 * (specSubtotal [⟨1, 2, 1000⟩] + specMaking exampleDB.products [⟨1, 2, 1000⟩]) +
          specShipping (specWeight exampleDB.products [⟨1, 2, 1000⟩]) - 0)) ∧
    ((createOrder exampleDB 7 "razorpay" none 1700000000000 99).2.toOption.map Order.pricing =
      some ⟨2000, 100, 63, 100, 0, 2263⟩) := by
  refine ⟨by decide, ?_, by decide⟩
  exact createOrder_pricing exampleDB 7 "razorpay" 1700000000000 99
    ⟨7, [⟨1, 2, 1000⟩], 2000⟩ (by decide) (by decide) (by decide)

/-! ## C7 — the status-history audit log

The admin endpoint pushes a history entry explicitly *and* then `save()`s an
order whose status value changed, so the pre-`save` hook pushes a second
entry: one admin transition appends two entries. The payment and
customer-cancellation paths append exactly one (the hook's). -/

/-- **C7 counterexample.** One admin transition `pending → processing` on a
fresh order leaves `statusHistory` with *two* entries, where the claim
demands exactly one per transition. -/
theorem admin_update_appends_two_entries :
    ((updateOrderStatus pendingDB 1 .processing none 9 77).1.orders.find?
        (fun o => o.oid == 1)).map (fun o => o.statusHistory.length) = some 2 ∧
    ((2 : Nat) = 1 → False) := ⟨by decide, by decide⟩

/-- **C7 (amended).** `statusHistory` is append-only, but the entry count per
transition depends on the path: a payment-driven confirmation appends
exactly one entry (the hook's); a customer cancellation appends exactly one;
an admin status update whose new status differs from the old appends exactly
two — the controller's explicit entry followed by the hook's. -/
theorem statusHistory_per_transition :
    (∀ (db : DB) (order : Order) (d : PayDetails) (now : Nat),
      order.status ≠ .confirmed →
      ((processSuccessfulPayment db order d now).2).statusHistory =
        order.statusHistory ++ [⟨.confirmed, none, none, now⟩]) ∧
    (∀ (db : DB) (reqUserId orderId : Nat) (reason : Option String) (now : Nat) (order : Order),
      db.orders.find? (fun o => o.oid == orderId) = some order →
      order.userId = reqUserId →
      ¬(order.status = .shipped ∨ order.status = .delivered ∨ order.status = .cancelled) →
      (cancelOrder db reqUserId orderId reason now).2 = .ok () ∧
      ∃ o', ((cancelOrder db reqUserId orderId reason now).1).orders.find?
          (fun x => x.oid == orderId) = some o' ∧
        o'.statusHistory = order.statusHistory ++ [⟨.cancelled, none, none, now⟩]) ∧
    (∀ (db : DB) (orderId : Nat) (newStatus : OrderStatus) (note : Option String)
        (adminId now : Nat) (order : Order),
      db.orders.find? (fun o => o.oid == orderId) = some order →
      newStatus ≠ order.status →
      (updateOrderStatus db orderId newStatus note adminId now).2 = .ok () ∧
      ∃ o', ((updateOrderStatus db orderId newStatus note adminId now).1).orders.find?
          (fun x => x.oid == orderId) = some o' ∧
        o'.statusHistory = order.statusHistory ++
          [⟨newStatus,
            some (note.getD ("Status changed from " ++ statusName order.status ++
              " to " ++ statusName newStatus)),
            some adminId, now⟩,
           ⟨newStatus, none, none, now⟩]) := by
  refine ⟨?_, ?_, ?_⟩
  · intro db order d now hne
    show (orderStatusHook order.status now _).statusHistory = _
    rw [orderStatusHook_history_of_ne _ _ _ (by simpa using Ne.symm hne)]
  · intro db reqUserId orderId reason now order hfind howner hstat
    have horder : order.oid = orderId := by
      have := List.find?_some hfind
      simpa using this
    subst horder
    unfold cancelOrder
    rw [hfind]
    dsimp only
    rw [if_neg (by simp [howner])]
    rw [if_neg hstat]
    have hcancel : order.status ≠ OrderStatus.cancelled := fun h => hstat (Or.inr (Or.inr h))
    have hsame := find?_updateFirst_same (fun x : Order => x.oid == order.oid)
      (fun _ => orderStatusHook order.status now
        { order with
          status := .cancelled
          cancellationReason := some (reason.getD "Cancelled by customer") })
      (fun a _ => by simp [orderStatusHook_oid]) db.orders
    have hhist : (orderStatusHook order.status now
        { order with
          status := .cancelled
          cancellationReason := some (reason.getD "Cancelled by customer") }).statusHistory =
        order.statusHistory ++ [⟨.cancelled, none, none, now⟩] := by
      rw [orderStatusHook_history_of_ne _ _ _ (by simpa using Ne.symm hcancel)]
    by_cases hp : order.payment.status = PaymentStatus.completed
    · rw [if_pos hp]
      refine ⟨rfl, orderStatusHook order.status now
        { order with
          status := .cancelled
          cancellationReason := some (reason.getD "Cancelled by customer") }, ?_, hhist⟩
      show (updateFirst _ _ db.orders).find? _ = _
      rw [hsame, hfind]
      rfl
    · rw [if_neg hp]
      refine ⟨rfl, orderStatusHook order.status now
        { order with
          status := .cancelled
          cancellationReason := some (reason.getD "Cancelled by customer") }, ?_, hhist⟩
      show (updateFirst _ _ db.orders).find? _ = _
      rw [hsame, hfind]
      rfl
  · intro db orderId newStatus note adminId now order hfind hne
    have horder : order.oid = orderId := by
      have := List.find?_some hfind
      simpa using this
    subst horder
    unfold updateOrderStatus
    rw [hfind]
    dsimp only
    have hsame := find?_updateFirst_same (fun x : Order => x.oid == order.oid)
      (fun _ => orderStatusHook order.status now
        { order with
          status := newStatus
          statusHistory := order.statusHistory ++
            [⟨newStatus,
              some (note.getD ("Status changed from " ++ statusName order.status ++
                " to " ++ statusName newStatus)),
              some adminId, now⟩] })
      (fun a _ => by simp [orderStatusHook_oid])
    have hhist : (orderStatusHook order.status now
        { order with
          status := newStatus
          statusHistory := order.statusHistory ++
            [⟨newStatus,
              some (note.getD ("Status changed from " ++ statusName order.status ++
                " to " ++ statusName newStatus)),
              some adminId, now⟩] }).statusHistory =
        order.statusHistory ++
          [⟨newStatus,
            some (note.getD ("Status changed from " ++ statusName order.status ++
              " to " ++ statusName newStatus)),
            some adminId, now⟩,
           ⟨newStatus, none, none, now⟩] := by
      rw [orderStatusHook_history_of_ne _ _ _ (by simpa using hne)]
      simp
    by_cases hc : newStatus = OrderStatus.confirmed ∧ order.status = OrderStatus.pending
    · rw [if_pos hc]
      refine ⟨rfl, orderStatusHook order.status now
        { order with
          status := newStatus
          statusHistory := order.statusHistory ++
            [⟨newStatus,
              some (note.getD ("Status changed from " ++ statusName order.status ++
                " to " ++ statusName newStatus)),
              some adminId, now⟩] }, ?_, hhist⟩
      show (updateFirst _ _ db.orders).find? _ = _
      rw [hsame, hfind]
      rfl
    · rw [if_neg hc]
      refine ⟨rfl, orderStatusHook order.status now
        { order with
          status := newStatus
          statusHistory := order.statusHistory ++
            [⟨newStatus,
              some (note.getD ("Status changed from " ++ statusName order.status ++
                " to " ++ statusName newStatus)),
              some adminId, now⟩] }, ?_, hhist⟩
      show (updateFirst _ _ db.orders).find? _ = _
      rw [hsame, hfind]
      rfl

/-- **C7 witness.** The per-transition counts evaluated on `pendingDB`: the
payment path appends one entry, the admin path appends its two. -/
theorem statusHistory_per_transition_witness :
    (((processSuccessfulPayment pendingDB pendingOrder ⟨"order_1", "pay_1", "s"⟩ 50).2).statusHistory =
      pendingOrder.statusHistory ++ [⟨.confirmed, none, none, 50⟩]) ∧
    ((updateOrderStatus pendingDB 1 .processing none 9 77).2 = .ok () ∧
      ∃ o', ((updateOrderStatus pendingDB 1 .processing none 9 77).1).orders.find?
          (fun x => x.oid == 1) = some o' ∧
        o'.statusHistory = pendingOrder.statusHistory ++
          [⟨.processing,
            some ("Status changed from " ++ statusName pendingOrder.status ++
              " to " ++ statusName .processing),
            some 9, 77⟩,
           ⟨.processing, none, none, 77⟩]) := by
  refine ⟨?_, ?_⟩
  · exact statusHistory_per_transition.1 pendingDB pendingOrder ⟨"order_1", "pay_1", "s"⟩ 50
      (by decide)
  · have h := statusHistory_per_transition.2.2 pendingDB 1 .processing none 9 77 pendingOrder
      (by decide) (by decide)
    simpa using h

/-! ## C9 — the `isInStock` derived invariant -/

/-- A product whose shelf is empty, flag correctly `false`. -/
def emptyShelfProduct : Product := ⟨1, "Silver Ring", true, 1000, 50, 10, ⟨0, false⟩⟩

/-- A completed order over the empty-shelf product, awaiting refund. -/
def staleDB : DB := ⟨[paidOrder], [emptyShelfProduct], [⟨7, [], 0⟩], []⟩

/-- **C9 counterexample.** Refunding the paid order restores the quantity to
2 through a `$inc` query update, which bypasses the pre-`save` hook — so
`isInStock` stays `false` while `quantity > 0`: the invariant does not hold
after this stock-changing operation. -/
theorem refund_breaks_stock_invariant :
    (initiateRefund staleDB 1 none 5).1.products.find? (fun p => p.pid == 1) =
      some ⟨1, "Silver Ring", true, 1000, 50, 10, ⟨2, false⟩⟩ ∧
    ¬ stockInvariant ⟨1, "Silver Ring", true, 1000, 50, 10, ⟨2, false⟩⟩ :=
  ⟨by decide, by decide⟩

/-- **C9 (amended).** The invariant `isInStock = (quantity > 0)` is
*preserved* by the stock mutations that go through `save()` — the payment
confirmation path and the admin status-update path — because the pre-`save`
hook recomputes the flag on every product it touches; it is *not* reinstated
by the `$inc`-based refund/cancellation restock, which leaves the flag as it
was (see the counterexample). -/
theorem stock_invariant_on_save_paths :
    (∀ (db : DB) (order : Order) (d : PayDetails) (now : Nat),
      (∀ p ∈ db.products, stockInvariant p) →
      ∀ p ∈ (processSuccessfulPayment db order d now).1.products, stockInvariant p) ∧
    (∀ (db : DB) (orderId : Nat) (newStatus : OrderStatus) (note : Option String)
        (adminId now : Nat),
      (∀ p ∈ db.products, stockInvariant p) →
      ∀ p ∈ (updateOrderStatus db orderId newStatus note adminId now).1.products,
        stockInvariant p) := by
  constructor
  · intro db order d now h p hp
    exact stockInvariant_decrementStock order.items db.products h p hp
  · intro db orderId newStatus note adminId now h p hp
    unfold updateOrderStatus at hp
    cases hfind : db.orders.find? (fun o => o.oid == orderId) with
    | none =>
      rw [hfind] at hp
      exact h p hp
    | some order =>
      rw [hfind] at hp
      dsimp only at hp
      by_cases hc : newStatus = OrderStatus.confirmed ∧ order.status = OrderStatus.pending
      · rw [if_pos hc] at hp
        exact stockInvariant_decrementStock order.items db.products h p hp
      · rw [if_neg hc] at hp
        exact h p hp

/-- **C9 witness.** Invariant preservation evaluated on `pendingDB`: after
the payment-captured confirmation the touched product still satisfies the
invariant (stock 8, flag `true`). -/
theorem stock_invariant_on_save_paths_witness :
    (∀ p ∈ pendingDB.products, stockInvariant p) ∧
    (∀ p ∈ (processSuccessfulPayment pendingDB pendingOrder ⟨"order_1", "pay_1", "s"⟩ 50).1.products,
      stockInvariant p) ∧
    ((processSuccessfulPayment pendingDB pendingOrder ⟨"order_1", "pay_1", "s"⟩ 50).1.products.find?
        (fun p => p.pid == 1)).map (fun p => (p.stock.quantity, p.stock.isInStock)) =
      some (8, true) := by
  refine ⟨by decide, ?_, by decide⟩
  exact stock_invariant_on_save_paths.1 pendingDB pendingOrder ⟨"order_1", "pay_1", "s"⟩ 50
    (by decide)

/-! ## C8 — order-number generation

``LS${Date.now()}${(count + 1).toString().padStart(4, '0')}`` is not
injective: the digit strings of the timestamp and of the padded counter can
trade digits across the boundary, and two same-millisecond creations that
read the same `countDocuments()` produce identical numbers. Injectivity
holds only on fixed-width observations (13-digit timestamps, counters below
10000). -/

/-- Value of a little-endian digit list — the left inverse of
`natDigitsAux`. -/
def unDigits : List Nat → Nat
  | [] => 0
  | d :: ds => d + 10 * unDigits ds

theorem natDigitsAux_zero (fuel : Nat) : natDigitsAux fuel 0 = [] := by
  cases fuel <;> simp [natDigitsAux]

theorem unDigits_natDigitsAux : ∀ fuel n, n ≤ fuel → unDigits (natDigitsAux fuel n) = n := by
  intro fuel
  induction fuel with
  | zero =>
    intro n hn
    interval_cases n
    rfl
  | succ f ih =>
    intro n hn
    by_cases h0 : n = 0
    · subst h0
      simp [natDigitsAux, unDigits]
    · rw [natDigitsAux, if_neg h0, unDigits, ih (n / 10) ?_]
      · exact Nat.mod_add_div n 10
      · have : n / 10 < n := Nat.div_lt_self (Nat.pos_of_ne_zero h0) (by norm_num)
        omega

theorem natDigitsAux_lt : ∀ fuel n, ∀ d ∈ natDigitsAux fuel n, d < 10 := by
  intro fuel
  induction fuel with
  | zero => intro n d hd; simp [natDigitsAux] at hd
  | succ f ih =>
    intro n d hd
    rw [natDigitsAux] at hd
    by_cases h0 : n = 0
    · rw [if_pos h0] at hd; simp at hd
    · rw [if_neg h0] at hd
      rcases List.mem_cons.mp hd with rfl | hd'
      · exact Nat.mod_lt _ (by norm_num)
      · exact ih _ _ hd'

theorem digitChar_inj : ∀ a < 10, ∀ b < 10, digitChar a = digitChar b → a = b := by decide

theorem digitChar_eq_zero : ∀ d, digitChar d = '0' → d = 0 := by
  intro d h
  match d with
  | 0 => rfl
  | 1 | 2 | 3 | 4 | 5 | 6 | 7 | 8 => simp [digitChar] at h
  | n + 9 => simp [digitChar] at h

theorem map_digitChar_inj : ∀ l1 l2 : List Nat, (∀ a ∈ l1, a < 10) → (∀ a ∈ l2, a < 10) →
    l1.map digitChar = l2.map digitChar → l1 = l2 := by
  intro l1
  induction l1 with
  | nil =>
    intro l2 _ _ h
    cases l2 with
    | nil => rfl
    | cons b t => simp at h
  | cons a t ih =>
    intro l2 h1 h2 h
    cases l2 with
    | nil => simp at h
    | cons b t2 =>
      simp only [List.map_cons, List.cons.injEq] at h
      have hab := digitChar_inj a (h1 a (List.mem_cons_self ..)) b (h2 b (List.mem_cons_self ..)) h.1
      rw [hab,
        ih t2 (fun x hx => h1 x (List.mem_cons_of_mem _ hx))
          (fun x hx => h2 x (List.mem_cons_of_mem _ hx)) h.2]

/-- The decimal rendering is injective. -/
theorem natChars_inj (m n : Nat) (h : natChars m = natChars n) : m = n := by
  have key : ∀ k, k ≠ 0 → natChars k = ((natDigitsAux k k).map digitChar).reverse := by
    intro k hk
    rw [natChars, if_neg hk]
  by_cases hm : m = 0 <;> by_cases hn : n = 0
  · omega
  · exfalso
    rw [natChars, if_pos hm, key n hn] at h
    have hmap : (natDigitsAux n n).map digitChar = ['0'] := by
      have := congrArg List.reverse h
      simpa using this.symm
    cases hd : natDigitsAux n n with
    | nil => rw [hd] at hmap; simp at hmap
    | cons d ds =>
      rw [hd] at hmap
      cases ds with
      | cons _ _ => simp at hmap
      | nil =>
        simp only [List.map_cons, List.map_nil, List.cons.injEq] at hmap
        have hd0 := digitChar_eq_zero d hmap.1
        have := unDigits_natDigitsAux n n le_rfl
        rw [hd, hd0] at this
        simp [unDigits] at this
        omega
  · exfalso
    rw [key m hm, natChars, if_pos hn] at h
    have hmap : (natDigitsAux m m).map digitChar = ['0'] := by
      have := congrArg List.reverse h
      simpa using this
    cases hd : natDigitsAux m m with
    | nil => rw [hd] at hmap; simp at hmap
    | cons d ds =>
      rw [hd] at hmap
      cases ds with
      | cons _ _ => simp at hmap
      | nil =>
        simp only [List.map_cons, List.map_nil, List.cons.injEq] at hmap
        have hd0 := digitChar_eq_zero d hmap.1
        have := unDigits_natDigitsAux m m le_rfl
        rw [hd, hd0] at this
        simp [unDigits] at this
        omega
  · rw [key m hm, key n hn] at h
    have hmap := List.reverse_injective h
    have hdig := map_digitChar_inj _ _ (natDigitsAux_lt m m) (natDigitsAux_lt n n) hmap
    have h1 := unDigits_natDigitsAux m m le_rfl
    have h2 := unDigits_natDigitsAux n n le_rfl
    rw [← h1, ← h2, hdig]

theorem natDigitsAux_len_le : ∀ fuel n k, n ≤ fuel → n < 10 ^ k →
    (natDigitsAux fuel n).length ≤ k := by
  intro fuel
  induction fuel with
  | zero => intro n k _ _; simp [natDigitsAux]
  | succ f ih =>
    intro n k hn hk
    by_cases h0 : n = 0
    · subst h0; simp [natDigitsAux_zero]
    · rw [natDigitsAux, if_neg h0]
      cases k with
      | zero =>
        exfalso
        simp at hk
        omega
      | succ j =>
        simp only [List.length_cons]
        have hdiv : n / 10 < 10 ^ j := by
          rw [Nat.div_lt_iff_lt_mul (by norm_num)]
          calc n < 10 ^ (j + 1) := hk
          _ = 10 ^ j * 10 := by rw [pow_succ]
        have hf : n / 10 ≤ f := by
          have := Nat.div_lt_self (Nat.pos_of_ne_zero h0) (show 1 < 10 by norm_num)
          omega
        have := ih (n / 10) j hf hdiv
        omega

theorem natDigitsAux_len_ge : ∀ fuel n k, n ≤ fuel → 10 ^ k ≤ n →
    k + 1 ≤ (natDigitsAux fuel n).length := by
  intro fuel
  induction fuel with
  | zero =>
    intro n k hn hk
    exfalso
    have : 0 < 10 ^ k := pow_pos (by norm_num) k
    omega
  | succ f ih =>
    intro n k hn hk
    have h0 : n ≠ 0 := by
      have : 0 < 10 ^ k := pow_pos (by norm_num) k
      omega
    rw [natDigitsAux, if_neg h0]
    cases k with
    | zero => simp
    | succ j =>
      simp only [List.length_cons]
      have hdiv : 10 ^ j ≤ n / 10 := by
        rw [Nat.le_div_iff_mul_le (by norm_num)]
        calc 10 ^ j * 10 = 10 ^ (j + 1) := (pow_succ 10 j).symm
        _ ≤ n := hk
      have hf : n / 10 ≤ f := by
        have := Nat.div_lt_self (Nat.pos_of_ne_zero h0) (show 1 < 10 by norm_num)
        omega
      have := ih (n / 10) j hf hdiv
      omega

/-- A number in `[10^k, 10^(k+1))` renders with `k + 1` digits. -/
theorem natChars_length_of_bounds (n k : Nat) (h1 : 10 ^ k ≤ n) (h2 : n < 10 ^ (k + 1)) :
    (natChars n).length = k + 1 := by
  have hn0 : n ≠ 0 := by
    have : 0 < 10 ^ k := pow_pos (by norm_num) k
    omega
  rw [natChars, if_neg hn0]
  simp only [List.length_reverse, List.length_map]
  have hle := natDigitsAux_len_le n n (k + 1) le_rfl h2
  have hge := natDigitsAux_len_ge n n k le_rfl h1
  omega

theorem natChars_ne_nil (n : Nat) : natChars n ≠ [] := by
  rw [natChars]
  split
  · simp
  · next h =>
    intro hc
    have hlen := congrArg List.length hc
    simp only [List.length_reverse, List.length_map, List.length_nil] at hlen
    have hnil := List.eq_nil_of_length_eq_zero hlen
    have := unDigits_natDigitsAux n n le_rfl
    rw [hnil] at this
    simp [unDigits] at this
    omega

theorem natDigitsAux_ne_nil (fuel n : Nat) (h0 : n ≠ 0) (hn : n ≤ fuel) :
    natDigitsAux fuel n ≠ [] := by
  cases fuel with
  | zero => omega
  | succ f => rw [natDigitsAux, if_neg h0]; simp

theorem natDigitsAux_getLast_ne_zero : ∀ fuel n, n ≠ 0 → n ≤ fuel →
    ∀ d, (natDigitsAux fuel n).getLast? = some d → d ≠ 0 := by
  intro fuel
  induction fuel with
  | zero => intro n h0 hn; omega
  | succ f ih =>
    intro n h0 hn d hd
    rw [natDigitsAux, if_neg h0] at hd
    by_cases hq : n / 10 = 0
    · rw [hq, natDigitsAux_zero] at hd
      simp only [List.getLast?_singleton, Option.some.injEq] at hd
      have hlt : n < 10 := by
        rcases Nat.lt_or_ge n 10 with h | h
        · exact h
        · exfalso
          have := Nat.le_div_iff_mul_le (show 0 < 10 by norm_num) |>.mpr
            (show 1 * 10 ≤ n by omega)
          omega
      rw [← hd]
      rw [Nat.mod_eq_of_lt hlt]
      exact h0
    · have hfle : n / 10 ≤ f := by
        have := Nat.div_lt_self (Nat.pos_of_ne_zero h0) (show 1 < 10 by norm_num)
        omega
      cases hrec : natDigitsAux f (n / 10) with
      | nil => exact absurd hrec (natDigitsAux_ne_nil f (n / 10) hq hfle)
      | cons r rs =>
        rw [hrec, List.getLast?_cons_cons] at hd
        exact ih (n / 10) hq hfle d (by rw [hrec]; exact hd)

/-- The first character of a nonzero number's rendering is never `'0'`. -/
theorem natChars_head_ne_zero (n : Nat) (h0 : n ≠ 0) : (natChars n).head? ≠ some '0' := by
  rw [natChars, if_neg h0, List.head?_reverse]
  intro hc
  cases hl : (natDigitsAux n n).getLast? with
  | none =>
    rw [List.getLast?_map, hl] at hc
    simp at hc
  | some d =>
    rw [List.getLast?_map, hl] at hc
    simp only [Option.map_some', Option.some.injEq] at hc
    exact natDigitsAux_getLast_ne_zero n n h0 le_rfl d hl (digitChar_eq_zero d hc)

/-- Two zero-padded renderings agree only if the raw renderings agree,
provided neither starts with a zero. -/
theorem replicate_zero_append_inj : ∀ (a b : Nat) (d1 d2 : List Char),
    d1 ≠ [] → d2 ≠ [] → d1.head? ≠ some '0' → d2.head? ≠ some '0' →
    List.replicate a '0' ++ d1 = List.replicate b '0' ++ d2 → d1 = d2 := by
  intro a
  induction a with
  | zero =>
    intro b d1 d2 h1 h2 hh1 hh2 h
    cases b with
    | zero => simpa using h
    | succ b' =>
      exfalso
      apply hh1
      simp only [List.replicate, List.nil_append, List.cons_append] at h
      rw [h]
      rfl
  | succ a' ih =>
    intro b d1 d2 h1 h2 hh1 hh2 h
    cases b with
    | zero =>
      exfalso
      apply hh2
      simp only [List.replicate, List.cons_append, List.nil_append] at h
      rw [← h]
      rfl
    | succ b' =>
      simp only [List.replicate, List.cons_append, List.cons.injEq] at h
      exact ih b' d1 d2 h1 h2 hh1 hh2 h.2

/-- **C8 counterexample.** The generation scheme collides on distinct
observations: a creation at millisecond 1 having counted 23455 orders and a
creation at millisecond 12 having counted 3455 orders both generate
`"LS123456"` — so the scheme itself is not injective, and (a fortiori) two
same-millisecond creations that read the same count collide. -/
theorem genOrderNumber_collision :
    genOrderNumber 1 23455 = genOrderNumber 12 3455 ∧
    ((1, 23455) : Nat × Nat) ≠ ((12, 3455) : Nat × Nat) := ⟨by decide, by decide⟩

/-- **C8 (amended).** Order numbers are unique only for fixed-width
observations: if both creations observe 13-digit millisecond timestamps
(every real clock from 2001 to 2286) *and* both observed counts stay below
9999, then equal order numbers force equal timestamps and equal counts. Two
creations in the same millisecond reading the same count — or counts and
timestamps whose digit strings trade places, as in the counterexample —
are not separated by the scheme; uniqueness rests on the `orderNumber`
unique index, not on generation. -/
theorem genOrderNumber_inj_fixed_width (t1 t2 c1 c2 : Nat)
    (ht1l : 10 ^ 12 ≤ t1) (ht1u : t1 < 10 ^ 13)
    (ht2l : 10 ^ 12 ≤ t2) (ht2u : t2 < 10 ^ 13)
    (hc1 : c1 + 1 ≤ 9999) (hc2 : c2 + 1 ≤ 9999)
    (h : genOrderNumber t1 c1 = genOrderNumber t2 c2) :
    t1 = t2 ∧ c1 = c2 := by
  unfold genOrderNumber at h
  have h' := congrArg String.data h
  simp only [String.data] at h'
  have hL : ∀ t (x : List Char), "LS".data ++ natChars t ++ x =
      'L' :: 'S' :: (natChars t ++ x) := by
    intro t x
    rfl
  rw [hL, hL] at h'
  simp only [List.cons.injEq, true_and] at h'
  have hlen : (natChars t1).length = (natChars t2).length := by
    rw [natChars_length_of_bounds t1 12 ht1l (by norm_num at ht1u ⊢; exact ht1u),
      natChars_length_of_bounds t2 12 ht2l (by norm_num at ht2u ⊢; exact ht2u)]
  obtain ⟨ht, hc⟩ := List.append_inj h' hlen
  refine ⟨natChars_inj _ _ ht, ?_⟩
  have hcc := replicate_zero_append_inj _ _ _ _
    (natChars_ne_nil (c1 + 1)) (natChars_ne_nil (c2 + 1))
    (natChars_head_ne_zero (c1 + 1) (by omega))
    (natChars_head_ne_zero (c2 + 1) (by omega)) hc
  have := natChars_inj _ _ hcc
  omega

/-- **C8 witness.** The fixed-width injectivity theorem evaluated at a real
millisecond timestamp and count. -/
theorem genOrderNumber_inj_fixed_width_witness :
    (10 ^ 12 ≤ 1700000000000 ∧ 1700000000000 < 10 ^ 13 ∧ 41 + 1 ≤ 9999) ∧
    (1700000000000 = 1700000000000 ∧ 41 = 41) :=
  ⟨⟨by norm_num, by norm_num, by norm_num⟩,
    genOrderNumber_inj_fixed_width 1700000000000 1700000000000 41 41
      (by norm_num) (by norm_num) (by norm_num) (by norm_num)
      (by norm_num) (by norm_num) rfl⟩

/-! ## C4 — webhook authenticity is *not* an HMAC of the raw bytes

The route is mounted behind `express.raw`, so the handler's `req.body` is
the raw `Buffer` — but `verifyWebhookSignature` HMACs
`JSON.stringify(webhookBody)`, and `JSON.stringify` of a `Buffer` is the
string `{"type":"Buffer","data":[…]}`, never the raw bytes themselves. A
genuine gateway signature (HMAC of the exact raw bytes) is therefore always
rejected. -/

/-- The webhook secret of the C4 scenario. -/
def c4Secret : List Nat := strBytes "whsec"

/-- A concrete raw webhook body: the bytes of `{"event":"x"}`. -/
def c4RawBody : List Nat := strBytes "\x7b\"event\":\"x\"\x7d"

/-- **C4.** At the concrete raw body `{"event":"x"}`: the code rejects the
genuine signature — the hex HMAC-SHA-256 of the exact raw bytes, which the
claim says must verify — while it accepts the HMAC of the Buffer's JSON
serialization, a string different from the raw bytes. -/
theorem webhook_signature_not_over_raw_bytes :
    verifyWebhookSignature c4Secret c4RawBody (specWebhookMac c4Secret c4RawBody) = false ∧
    verifyWebhookSignature c4Secret c4RawBody
      (hmacSha256Hex c4Secret (strBytes (bufferJson c4RawBody))) = true ∧
    strBytes (bufferJson c4RawBody) ≠ c4RawBody :=
  ⟨by decide, by decide, by decide⟩

end LaxmiSilver
